import Mathlib

/-!
# lr-libc: the duplicate-process reaper and the think-time helper

A shallow embedding of `lrlib.h`.  The C functions talk to the Win32 kernel and to the
LoadRunner engine; here every such call goes through a `Kernel` record of step functions
over an arbitrary state type, and each call leaves an `Event` (its arguments and what it
returned) in the trace of the `World`.  C strings are lists of byte values, `unsigned int`
values are naturals below `2^32`, `int` values are integers obtained by `toInt32`.
-/

namespace LrLibc

/-! ## Machine integers -/

/-- Value kept by a C `unsigned int` (32 bits) when a number is stored in it. -/
def u32 (n : Nat) : Nat := n % 4294967296

/-- Value of a 32-bit pattern read as a C `int`. -/
def toInt32 (n : Nat) : Int :=
  if n % 4294967296 < 2147483648 then Int.ofNat (n % 4294967296)
  else Int.ofNat (n % 4294967296) - 4294967296

/-- A C `int` passed where the callee expects a `DWORD`: same 32-bit pattern. -/
def intToU32 (i : Int) : Nat := (i % 4294967296).toNat

/-! ## Constants of `lrlib.h` -/

def PROCESS_TERMINATE : Nat := 0x0001
def PROCESS_VM_READ : Nat := 0x0010
def PROCESS_QUERY_INFORMATION : Nat := 0x0400
def PROCESS_QUERY_LIMITED_INFORMATION : Nat := 0x1000
def MAX_PATH : Int := 260
def MAX_PROCESS_ID_COUNT : Nat := 1024
/-- The constant `sizeof(processIds[0])`, the size of an `unsigned int`. -/
def ELEMENT_SIZE : Nat := 4
def FALSE : Nat := 0

/-- Access mask of the query in `lrlibc_get_process_file_path`. -/
def QUERY_ACCESS : Nat := PROCESS_QUERY_INFORMATION ||| PROCESS_VM_READ
/-- Access mask of the open that precedes `TerminateProcess`. -/
def KILL_ACCESS : Nat := PROCESS_QUERY_INFORMATION ||| PROCESS_VM_READ ||| PROCESS_TERMINATE

/-! ## The C library's `stricmp` -/

/-- The C `tolower` on a byte (C locale). -/
def tolower (c : Nat) : Nat := if 65 ≤ c ∧ c ≤ 90 then c + 32 else c

/-- The C `stricmp`: compares lower-cased bytes, `0` on equality. -/
def stricmp : List Nat → List Nat → Int
  | [], [] => 0
  | [], _ :: _ => -1
  | _ :: _, [] => 1
  | a :: as, b :: bs =>
    if tolower a = tolower b then stricmp as bs
    else if tolower a < tolower b then -1 else 1

/-! ## Kernel, events, world -/

/-- One call made to the kernel or to the engine, with what it returned. -/
inductive Event where
  | loadDll (path : String) (rc : Int)
  | getCurrentProcessId (pid : Nat)
  | openProcess (access : Nat) (inherit : Nat) (pid : Nat) (handle : Nat)
  | getModuleFileNameExA (handle : Nat) (nSize : Nat) (result : Int) (buffer : List Nat)
  | closeHandle (handle : Nat)
  | enumProcesses (cb : Nat) (result : Int) (bytesReturned : Nat)
  | terminateProcess (handle : Nat) (exitCode : Nat) (result : Int)
  | errorMessage (text : String)
  | outputMessage (format : String) (args : List Int)
  | abort
  | startTransaction (name : String)
  | endTransaction (name : String)
  | sleep (milliseconds : Nat)
  | getTransactionWastedTime (name : String) (result : Int)
  deriving DecidableEq, Repr

/-- The Win32 and engine primitives the library calls, as step functions on a state. -/
structure Kernel (σ : Type) where
  lr_load_dll : String → σ → Nat × σ
  GetCurrentProcessId : σ → Nat × σ
  OpenProcess : Nat → Nat → Nat → σ → Nat × σ
  GetModuleFileNameExA : Nat → Nat → σ → (Nat × List Nat) × σ
  CloseHandle : Nat → σ → σ
  EnumProcesses : Nat → σ → (Nat × (Nat → Nat) × Nat) × σ
  TerminateProcess : Nat → Nat → σ → Nat × σ
  sleep : Nat → σ → σ
  lr_get_transaction_wasted_time : String → σ → Nat × σ

/-- Kernel state together with the trace of calls made so far (oldest first). -/
structure World (σ : Type) where
  os : σ
  trace : List Event

/-- A world in which nothing has been called yet. -/
def fresh {σ : Type} (s : σ) : World σ := ⟨s, []⟩

/-! ## Primitive calls, each leaving its event in the trace -/

section Model
variable {σ : Type}

def lr_load_dll (K : Kernel σ) (path : String) (w : World σ) : Int × World σ :=
  let r := K.lr_load_dll path w.os
  (toInt32 r.1, ⟨r.2, w.trace ++ [Event.loadDll path (toInt32 r.1)]⟩)

/-- The engine's error log; it records the text and changes nothing else. -/
def lr_error_message (text : String) (w : World σ) : World σ :=
  ⟨w.os, w.trace ++ [Event.errorMessage text]⟩

def lr_output_message (format : String) (args : List Int) (w : World σ) : World σ :=
  ⟨w.os, w.trace ++ [Event.outputMessage format args]⟩

/-- The engine's `lr_abort`: the script stops here, the caller is not resumed. -/
def lr_abort (w : World σ) : World σ :=
  ⟨w.os, w.trace ++ [Event.abort]⟩

def GetCurrentProcessId (K : Kernel σ) (w : World σ) : Nat × World σ :=
  let r := K.GetCurrentProcessId w.os
  (u32 r.1, ⟨r.2, w.trace ++ [Event.getCurrentProcessId (u32 r.1)]⟩)

def OpenProcess (K : Kernel σ) (access inherit pid : Nat) (w : World σ) : Nat × World σ :=
  let r := K.OpenProcess access inherit pid w.os
  (u32 r.1, ⟨r.2, w.trace ++ [Event.openProcess access inherit pid (u32 r.1)]⟩)

def GetModuleFileNameExA (K : Kernel σ) (hProcess nSize : Nat) (w : World σ) :
    Int × List Nat × World σ :=
  let r := K.GetModuleFileNameExA hProcess nSize w.os
  (toInt32 r.1.1, r.1.2,
    ⟨r.2, w.trace ++ [Event.getModuleFileNameExA hProcess nSize (toInt32 r.1.1) r.1.2]⟩)

def CloseHandle (K : Kernel σ) (hObject : Nat) (w : World σ) : World σ :=
  ⟨K.CloseHandle hObject w.os, w.trace ++ [Event.closeHandle hObject]⟩

def EnumProcesses (K : Kernel σ) (cb : Nat) (w : World σ) :
    Int × (Nat → Nat) × Nat × World σ :=
  let r := K.EnumProcesses cb w.os
  (toInt32 r.1.1, r.1.2.1, u32 r.1.2.2,
    ⟨r.2, w.trace ++ [Event.enumProcesses cb (toInt32 r.1.1) (u32 r.1.2.2)]⟩)

def TerminateProcess (K : Kernel σ) (hProcess uExitCode : Nat) (w : World σ) :
    Int × World σ :=
  let r := K.TerminateProcess hProcess uExitCode w.os
  (toInt32 r.1, ⟨r.2, w.trace ++ [Event.terminateProcess hProcess uExitCode (toInt32 r.1)]⟩)

def lr_start_transaction (name : String) (w : World σ) : World σ :=
  ⟨w.os, w.trace ++ [Event.startTransaction name]⟩

def lr_end_transaction (name : String) (w : World σ) : World σ :=
  ⟨w.os, w.trace ++ [Event.endTransaction name]⟩

def sleep (K : Kernel σ) (milliseconds : Nat) (w : World σ) : World σ :=
  ⟨K.sleep milliseconds w.os, w.trace ++ [Event.sleep milliseconds]⟩

def lr_get_transaction_wasted_time (K : Kernel σ) (name : String) (w : World σ) :
    Int × World σ :=
  let r := K.lr_get_transaction_wasted_time name w.os
  (toInt32 r.1, ⟨r.2, w.trace ++ [Event.getTransactionWastedTime name (toInt32 r.1)]⟩)

/-! ## The functions of `lrlib.h` -/

/-- `lrlibc_load_dll`: `true` when the caller is resumed, `false` when `lr_abort` stopped
the script. -/
def lrlibc_load_dll (K : Kernel σ) (dllPath : String) (w : World σ) : Bool × World σ :=
  let (loadResult, w) := lr_load_dll K dllPath w
  if loadResult ≠ 0 then
    let w := lr_error_message "Error loading '%s' (error code %d)." w
    (false, lr_abort w)
  else (true, w)

/-- `lrlib_think_time`: the argument is a C `double`, taken here as a rational number. -/
def lrlib_think_time (K : Kernel σ) (_time : ℚ) (w : World σ) : World σ :=
  let (rc, w) := lr_load_dll K "Kernel32.dll" w
  let w := if rc ≠ 0 then lr_error_message "Error loading DLL" w else w
  let w := lr_start_transaction "sleep time" w
  let w := sleep K 1000 w
  let (wasted, w) := lr_get_transaction_wasted_time K "sleep time" w
  let w := lr_output_message "wasted time: %d" [wasted] w
  lr_end_transaction "sleep time" w

/-- `lrlibc_get_process_file_path`: the returned triple is the `int` result, the C string
left in `filePath`, and the world. -/
def lrlibc_get_process_file_path (K : Kernel σ) (processId : Int) (maxLength : Int)
    (w : World σ) : Int × List Nat × World σ :=
  let (hProcess, w) := OpenProcess K QUERY_ACCESS FALSE (intToU32 processId) w
  if hProcess = 0 then (0, [], w)
  else
    let (result, filePath, w) := GetModuleFileNameExA K hProcess (intToU32 maxLength) w
    let filePath := if result = 0 then [] else filePath
    let w := CloseHandle K hProcess w
    (result, filePath, w)

/-- The body of the `for` loop of `lrlibc_kill_all_mmdrv` for one `processId`; the
accumulator is the world and `killCount`. -/
def scanBody (K : Kernel σ) (currentProcessId : Nat) (currentProcessFilePath : List Nat)
    (acc : World σ × Int) (processId : Nat) : World σ × Int :=
  let (w, killCount) := acc
  if processId = currentProcessId then (w, killCount)
  else
    let (res, processFilePath, w) :=
      lrlibc_get_process_file_path K (toInt32 processId) MAX_PATH w
    if res ≤ 0 then (w, killCount)
    else if stricmp processFilePath currentProcessFilePath ≠ 0 then (w, killCount)
    else
      let (hProcess, w) := OpenProcess K KILL_ACCESS FALSE processId w
      if hProcess = 0 then (w, killCount)
      else
        let w := lr_output_message "Killing process %d" [toInt32 processId] w
        let (ok, w) := TerminateProcess K hProcess 0 w
        let killCount := if ok ≠ 0 then killCount + 1 else killCount
        let w := CloseHandle K hProcess w
        (w, killCount)

/-- The `for` loop over the entries `processIds[0 .. processIdCount-1]`. -/
def scanLoop (K : Kernel σ) (currentProcessId : Nat) (currentProcessFilePath : List Nat)
    (ids : List Nat) (acc : World σ × Int) : World σ × Int :=
  ids.foldl (scanBody K currentProcessId currentProcessFilePath) acc

/-- The entries the loop reads: `processIds[i]` for `i < processIdCount`, each an
`unsigned int`. -/
def snapshotOf (processIds : Nat → Nat) (processIdCount : Int) : List Nat :=
  (List.range processIdCount.toNat).map (fun i => u32 (processIds i))

/-- Where `lrlibc_kill_all_mmdrv` stands when its straight-line part is over. -/
inductive Prologue (σ : Type) where
  | aborted (w : World σ)
  | returned (value : Int) (w : World σ)
  | scanning (currentProcessId : Nat) (currentProcessFilePath : List Nat)
      (snapshot : List Nat) (w : World σ)

/-- Lines 377-396 of `lrlibc_kill_all_mmdrv`: the two DLL loads, the query on the current
process, the enumeration, and `processIdCount`. -/
def prologue (K : Kernel σ) (w : World σ) : Prologue σ :=
  match lrlibc_load_dll K "kernel32.dll" w with
  | (false, w) => .aborted w
  | (true, w) =>
    match lrlibc_load_dll K "psapi.dll" w with
    | (false, w) => .aborted w
    | (true, w) =>
      let (currentProcessId, w) := GetCurrentProcessId K w
      let (res, currentProcessFilePath, w) :=
        lrlibc_get_process_file_path K (toInt32 currentProcessId) MAX_PATH w
      if res ≤ 0 then
        .returned 0 (lr_error_message "Error querying the current process." w)
      else
        let (enumResult, processIds, bytesReturned, w) :=
          EnumProcesses K (MAX_PROCESS_ID_COUNT * ELEMENT_SIZE) w
        if enumResult = 0 then
          .returned 0 (lr_error_message "Error enumerating processes." w)
        else
          let processIdCount : Int := toInt32 (bytesReturned / ELEMENT_SIZE)
          .scanning currentProcessId currentProcessFilePath
            (snapshotOf processIds processIdCount) w

/-- `lrlibc_kill_all_mmdrv`: `none` when `lr_abort` stopped the script, otherwise the
returned `int`. -/
def lrlibc_kill_all_mmdrv (K : Kernel σ) (w : World σ) : Option Int × World σ :=
  match prologue K w with
  | .aborted w => (none, w)
  | .returned value w => (some value, w)
  | .scanning currentProcessId currentProcessFilePath snapshot w =>
    let killCount : Int := 0
    let (w, killCount) :=
      scanLoop K currentProcessId currentProcessFilePath snapshot (w, killCount)
    (some killCount, w)

end Model

/-! ## An explicit process table

A concrete kernel: a table of processes, a table of open handles, and nothing else.  A
process that is terminated leaves the table; no call creates a process. -/

/-- One row of the process table. -/
structure Proc where
  pid : Nat
  path : List Nat
  /-- Whether the process may be opened with the query rights. -/
  queryable : Bool
  /-- Whether the name of its image can be read. -/
  named : Bool
  /-- Whether the process may be opened with `PROCESS_TERMINATE`. -/
  killable : Bool
  /-- Whether `TerminateProcess` succeeds on it. -/
  mortal : Bool
  deriving DecidableEq, Repr

/-- State of the explicit kernel. -/
structure Sys where
  self : Nat
  procs : List Proc
  /-- Open handles: handle value, process id, granted access. -/
  handles : List (Nat × Nat × Nat)
  /-- Number of handles handed out so far. -/
  ticket : Nat
  /-- Whether `EnumProcesses` succeeds. -/
  enumerable : Bool
  deriving DecidableEq, Repr

/-- The row of a process id, if the process is running. -/
def findProc (procs : List Proc) (pid : Nat) : Option Proc :=
  procs.find? (fun q => q.pid == pid)

/-- The table without the (first) row of a process id. -/
def removeProc : List Proc → Nat → List Proc
  | [], _ => []
  | q :: qs, pid => if q.pid = pid then qs else q :: removeProc qs pid

/-- The entry of a handle value, if it is open. -/
def findHandle (handles : List (Nat × Nat × Nat)) (h : Nat) : Option (Nat × Nat × Nat) :=
  handles.find? (fun e => e.1 == h)

/-- The handle table without the (first) entry of a handle value. -/
def dropHandle : List (Nat × Nat × Nat) → Nat → List (Nat × Nat × Nat)
  | [], _ => []
  | e :: es, h => if e.1 = h then es else e :: dropHandle es h

/-- Whether the table grants the requested access on a process. -/
def grants (q : Proc) (access : Nat) : Bool :=
  (access &&& QUERY_ACCESS == 0 || q.queryable) &&
  (access &&& PROCESS_TERMINATE == 0 || q.killable)

/-- The next handle value: a non-zero multiple of four that fits 32 bits. -/
def nextHandle (ticket : Nat) : Nat := 4 * (ticket % 1073741823 + 1)

def Sys.openProcess (access _inherit pid : Nat) (s : Sys) : Nat × Sys :=
  match findProc s.procs pid with
  | none => (0, s)
  | some q =>
    if grants q access then
      (nextHandle s.ticket,
        { s with handles := (nextHandle s.ticket, pid, access) :: s.handles,
                 ticket := s.ticket + 1 })
    else (0, s)

def Sys.getModuleFileNameExA (h nSize : Nat) (s : Sys) : (Nat × List Nat) × Sys :=
  match findHandle s.handles h with
  | none => ((0, []), s)
  | some e =>
    if e.2.2 &&& QUERY_ACCESS = QUERY_ACCESS then
      match findProc s.procs e.2.1 with
      | none => ((0, []), s)
      | some q =>
        if q.named then ((min q.path.length nSize, q.path.take nSize), s)
        else ((0, []), s)
    else ((0, []), s)

def Sys.closeHandle (h : Nat) (s : Sys) : Sys :=
  { s with handles := dropHandle s.handles h }

def Sys.enumProcesses (cb : Nat) (s : Sys) : (Nat × (Nat → Nat) × Nat) × Sys :=
  if s.enumerable then
    let written := (s.procs.map Proc.pid).take (cb / 4)
    ((1, (fun i => written.getD i 0), 4 * written.length), s)
  else ((0, (fun _ => 0), 0), s)

def Sys.terminateProcess (h _exitCode : Nat) (s : Sys) : Nat × Sys :=
  match findHandle s.handles h with
  | none => (0, s)
  | some e =>
    if e.2.2 &&& PROCESS_TERMINATE = PROCESS_TERMINATE then
      match findProc s.procs e.2.1 with
      | none => (0, s)
      | some q =>
        if q.mortal then (1, { s with procs := removeProc s.procs e.2.1 })
        else (0, s)
    else (0, s)

/-- The explicit kernel. -/
def tableKernel : Kernel Sys where
  lr_load_dll := fun _ s => (0, s)
  GetCurrentProcessId := fun s => (s.self, s)
  OpenProcess := Sys.openProcess
  GetModuleFileNameExA := Sys.getModuleFileNameExA
  CloseHandle := Sys.closeHandle
  EnumProcesses := Sys.enumProcesses
  TerminateProcess := Sys.terminateProcess
  sleep := fun _ s => s
  lr_get_transaction_wasted_time := fun _ s => (0, s)

/-- A machine that has just booted with the given process table. -/
def boot (self : Nat) (procs : List Proc) : Sys :=
  { self := self, procs := procs, handles := [], ticket := 0, enumerable := true }

/-- An ordinary process: every right granted, every call on it succeeds. -/
def plainProc (pid : Nat) (path : List Nat) : Proc :=
  { pid := pid, path := path, queryable := true, named := true, killable := true,
    mortal := true }

/-- The bytes of `c:\mmdrv.exe`. -/
def mmdrvPath : List Nat := [99, 58, 92, 109, 109, 100, 114, 118, 46, 101, 120, 101]
/-- The bytes of `C:\MMDRV.EXE`. -/
def mmdrvPathUpper : List Nat := [67, 58, 92, 77, 77, 68, 82, 86, 46, 69, 88, 69]
/-- The bytes of `c:\other.exe`. -/
def otherPath : List Nat := [99, 58, 92, 111, 116, 104, 101, 114, 46, 101, 120, 101]

/-- Scenario A: the caller 100, a duplicate 200 (path spelled in upper case), and 300
running another image. -/
def scenarioA : Sys :=
  boot 100 [plainProc 100 mmdrvPath, plainProc 200 mmdrvPathUpper, plainProc 300 otherPath]

/-- A table that lists the caller's id twice, around a duplicate 200. -/
def scenarioTwice : Sys :=
  boot 100 [plainProc 100 mmdrvPath, plainProc 200 mmdrvPath, plainProc 100 mmdrvPath]

/-- A table with one of each kind: the caller 100, a duplicate 200, another image 300,
a duplicate 400 that may not be opened for termination, a duplicate 500 on which
`TerminateProcess` fails, a process 600 that may not be opened at all, and a process 700
whose image name cannot be read. -/
def scenarioMixed : Sys :=
  boot 100 [plainProc 100 mmdrvPath, plainProc 200 mmdrvPath, plainProc 300 otherPath,
    { plainProc 400 mmdrvPath with killable := false },
    { plainProc 500 mmdrvPath with mortal := false },
    { plainProc 600 mmdrvPath with queryable := false },
    { plainProc 700 mmdrvPath with named := false }]

/-- The caller 100 and a duplicate 200 that may not be opened for termination. -/
def scenarioLocked : Sys :=
  boot 100 [plainProc 100 mmdrvPath, { plainProc 200 mmdrvPath with killable := false }]

/-- The caller 100 and a table that lists twice a duplicate 200 on which
`TerminateProcess` fails. -/
def scenarioStubborn : Sys :=
  boot 100 [plainProc 100 mmdrvPath, { plainProc 200 mmdrvPath with mortal := false },
    { plainProc 200 mmdrvPath with mortal := false }]

/-- The same machine as scenario A, but the caller may not be opened for query. -/
def scenarioBlind : Sys :=
  boot 100 [{ plainProc 100 mmdrvPath with queryable := false },
    plainProc 200 mmdrvPath, plainProc 300 otherPath]

/-- The same machine as scenario A, but `EnumProcesses` fails. -/
def scenarioNoEnum : Sys :=
  { scenarioA with enumerable := false }

/-! ## The explicit table, read without the kernel

What the path query, one iteration and a whole run do to the process table of the
explicit kernel, as functions of the table alone. -/

/-- Result and string of the path query on the process id `p`. -/
def tableQuery (procs : List Proc) (p : Nat) : Int × List Nat :=
  match findProc procs p with
  | some q =>
    if q.queryable && q.named then
      (toInt32 (min q.path.length 260),
        if toInt32 (min q.path.length 260) = 0 then [] else q.path.take 260)
    else (0, [])
  | none => (0, [])

/-- Whether the iteration on the process id `p` ends in a successful terminate. -/
def reaped (procs : List Proc) (selfPath : List Nat) (p : Nat) : Bool :=
  decide (0 < (tableQuery procs p).1) &&
  decide (stricmp (tableQuery procs p).2 selfPath = 0) &&
  (match findProc procs p with
   | some q => q.queryable && q.killable && q.mortal
   | none => false)

/-- Effect of one iteration on the table and on `killCount`. -/
def reap (c : Nat) (selfPath : List Nat) (acc : List Proc × Int) (p : Nat) :
    List Proc × Int :=
  if p ≠ c ∧ reaped acc.1 selfPath p = true then (removeProc acc.1 p, acc.2 + 1) else acc

/-- The entries a snapshot of the table holds: the first 1024 process ids. -/
def tableSnapshot (procs : List Proc) : List Nat :=
  ((procs.map Proc.pid).take 1024).map u32

/-- Effect of a whole run on the table, with the value returned. -/
def tableRun (s : Sys) : List Proc × Int :=
  if (tableQuery s.procs (u32 s.self)).1 ≤ 0 then (s.procs, 0)
  else if s.enumerable = false then (s.procs, 0)
  else (tableSnapshot s.procs).foldl
    (reap (u32 s.self) (tableQuery s.procs (u32 s.self)).2) (s.procs, 0)

/-- The rows 102 .. 1123: 1022 processes that may not be opened. -/
def fillers : List Proc :=
  (List.range 1022).map (fun i => { plainProc (102 + i) otherPath with queryable := false })

/-- A table of 1025 rows: the caller 100, a duplicate 101, the 1022 fillers, and a
second duplicate 2000 in the last row, beyond the 1024 entries of a snapshot. -/
def scenarioCrowded : Sys :=
  boot 100 (plainProc 100 mmdrvPath :: plainProc 101 mmdrvPath ::
    (fillers ++ [plainProc 2000 mmdrvPath]))

/-! ## Reading a trace -/

/-- A call of `TerminateProcess`. -/
def isTerminate : Event → Bool
  | .terminateProcess _ _ _ => true
  | _ => false

/-- A call of `TerminateProcess` that reported success. -/
def isKill : Event → Bool
  | .terminateProcess _ _ result => result != 0
  | _ => false

/-- A call of `OpenProcess` that asks for `PROCESS_TERMINATE`. -/
def isKillOpen : Event → Bool
  | .openProcess access _ _ _ => access &&& PROCESS_TERMINATE != 0
  | _ => false

/-- A call of `lr_error_message`. -/
def isError : Event → Bool
  | .errorMessage _ => true
  | _ => false

/-- A call of `EnumProcesses`. -/
def isEnum : Event → Bool
  | .enumProcesses _ _ _ => true
  | _ => false

/-- A call of `GetModuleFileNameExA`, the image-path query. -/
def isPathQuery : Event → Bool
  | .getModuleFileNameExA _ _ _ _ => true
  | _ => false

/-- A call of `GetCurrentProcessId`. -/
def isGetPid : Event → Bool
  | .getCurrentProcessId _ => true
  | _ => false

/-- A call of `OpenProcess` that asks for `PROCESS_TERMINATE` on the process id `c`. -/
def targets (c : Nat) : Event → Bool
  | .openProcess access _ pid _ => access &&& PROCESS_TERMINATE != 0 && pid == c
  | _ => false

/-- Number of `TerminateProcess` calls in a trace that reported success. -/
def killsIn (tr : List Event) : Nat := tr.countP isKill

/-- Number of `TerminateProcess` calls in a trace. -/
def attemptsIn (tr : List Event) : Nat := tr.countP isTerminate

/-- The process a handle value stands for, given the handles opened so far. -/
def ownerOf (open_ : List (Nat × Nat)) (h : Nat) : Option Nat :=
  (open_.find? (fun e => e.1 == h)).map Prod.snd

/-- The open handles without the (first) entry of a handle value. -/
def forget : List (Nat × Nat) → Nat → List (Nat × Nat)
  | [], _ => []
  | e :: es, h => if e.1 = h then es else e :: forget es h

/-- Number of `TerminateProcess` calls in a trace made on a handle that was opened for
the process id `p` and not closed since; `open_` holds the handles open at the start. -/
def attemptsOn (p : Nat) : List (Nat × Nat) → List Event → Nat
  | _, [] => 0
  | open_, .openProcess _ _ pid h :: tr =>
    attemptsOn p (if h = 0 then open_ else (h, pid) :: open_) tr
  | open_, .closeHandle h :: tr => attemptsOn p (forget open_ h) tr
  | open_, .terminateProcess h _ _ :: tr =>
    (if ownerOf open_ h = some p then 1 else 0) + attemptsOn p open_ tr
  | open_, _ :: tr => attemptsOn p open_ tr

section Entry
variable {σ : Type}

/-- World and `killCount` when the scan has gone through the entries `pre`. -/
def atEntry (K : Kernel σ) (self : Nat) (selfPath : List Nat) (pre : List Nat)
    (w1 : World σ) : World σ × Int :=
  scanLoop K self selfPath pre (w1, 0)

/-- The path query the scan makes on the entry `p` from the world `w`. -/
def queryAt (K : Kernel σ) (p : Nat) (w : World σ) : Int × List Nat × World σ :=
  lrlibc_get_process_file_path K (toInt32 p) MAX_PATH w

/-- The open for termination the scan makes on the entry `p` after that query. -/
def killOpenAt (K : Kernel σ) (p : Nat) (w : World σ) : Nat × World σ :=
  OpenProcess K KILL_ACCESS FALSE p (queryAt K p w).2.2

end Entry

/-- The handles left open by a trace, starting from the handles `held`: an `OpenProcess`
that returns a handle adds it, a `CloseHandle` removes it; `none` when a handle is closed
that is not open. -/
def balance : List Nat → List Event → Option (List Nat)
  | held, [] => some held
  | held, .openProcess _ _ _ h :: tr => balance (if h = 0 then held else h :: held) tr
  | held, .closeHandle h :: tr => if h ∈ held then balance (held.erase h) tr else none
  | held, _ :: tr => balance held tr

/-- The durations, in milliseconds, passed to `sleep` in a trace. -/
def sleepRequests : List Event → List Nat
  | [] => []
  | .sleep ms :: tr => ms :: sleepRequests tr
  | _ :: tr => sleepRequests tr

/-- The calls `lrlibc_get_process_file_path` makes on a process that answers. -/
def queryEvents (pid hq : Nat) (n : Int) (buf : List Nat) : List Event :=
  [.openProcess QUERY_ACCESS FALSE pid hq, .getModuleFileNameExA hq 260 n buf,
   .closeHandle hq]

/-- The calls that follow a matching path when the process opens: the open, the log
line, the terminate, the close. -/
def killEvents (pid h : Nat) (r : Int) : List Event :=
  [.openProcess KILL_ACCESS FALSE pid h, .outputMessage "Killing process %d" [toInt32 pid],
   .terminateProcess h 0 r, .closeHandle h]

/-- The calls of the straight-line part when it reaches the scan. -/
def prologueEvents (self hq : Nat) (n : Int) (buf : List Nat) (r : Int) (b : Nat) :
    List Event :=
  [.loadDll "kernel32.dll" 0, .loadDll "psapi.dll" 0, .getCurrentProcessId self] ++
    queryEvents self hq n buf ++ [.enumProcesses 4096 r b]

/-- What one call of `lrlibc_get_process_file_path` on `pid` can leave in the trace,
with the result and the string it returns. -/
inductive QueryShape (pid : Nat) : Int → List Nat → List Event → Prop where
  | denied : QueryShape pid 0 [] [.openProcess QUERY_ACCESS FALSE pid 0]
  | answered (hq : Nat) (n : Int) (buf : List Nat) : hq ≠ 0 →
      QueryShape pid n (if n = 0 then [] else buf) (queryEvents pid hq n buf)

/-- What one iteration of the scan on the entry `p` can leave in the trace, with the
amount it adds to `killCount`. -/
inductive IterShape (self : Nat) (selfPath : List Nat) (p : Nat) :
    List Event → Int → Prop where
  | own : p = self → IterShape self selfPath p [] 0
  | unresolved (res : Int) (path : List Nat) (seg : List Event) : p ≠ self →
      QueryShape p res path seg → res ≤ 0 → IterShape self selfPath p seg 0
  | mismatch (res : Int) (path : List Nat) (seg : List Event) : p ≠ self →
      QueryShape p res path seg → 0 < res → stricmp path selfPath ≠ 0 →
      IterShape self selfPath p seg 0
  | locked (hq : Nat) (n : Int) (buf : List Nat) : p ≠ self → hq ≠ 0 → 0 < n →
      stricmp buf selfPath = 0 →
      IterShape self selfPath p
        (queryEvents p hq n buf ++ [.openProcess KILL_ACCESS FALSE p 0]) 0
  | attempted (hq : Nat) (n : Int) (buf : List Nat) (h : Nat) (r : Int) : p ≠ self →
      hq ≠ 0 → 0 < n → stricmp buf selfPath = 0 → h ≠ 0 →
      IterShape self selfPath p (queryEvents p hq n buf ++ killEvents p h r)
        (if r ≠ 0 then 1 else 0)

/-- What the scan over a list of entries can leave in the trace, with the total it adds
to `killCount`. -/
inductive LoopShape (self : Nat) (selfPath : List Nat) :
    List Nat → List Event → Int → Prop where
  | nil : LoopShape self selfPath [] [] 0
  | cons (p : Nat) (ps : List Nat) (seg rest : List Event) (d total : Int) :
      IterShape self selfPath p seg d → LoopShape self selfPath ps rest total →
      LoopShape self selfPath (p :: ps) (seg ++ rest) (d + total)

/-- Every `TerminateProcess` in the trace comes right after the calls that justify it: a
path query on an entry `p` of `ids` other than `self` that returned a positive length and
a string equal to `selfPath` under `stricmp`, then a successful open of `p` with
`KILL_ACCESS` whose handle is the one terminated, then the log line. -/
def Justified (ids : List Nat) (self : Nat) (selfPath : List Nat) (tr : List Event) : Prop :=
  ∀ (pre post : List Event) (h x : Nat) (r : Int),
    tr = pre ++ Event.terminateProcess h x r :: post →
    ∃ front p hq n buf, p ∈ ids ∧ p ≠ self ∧ hq ≠ 0 ∧ 0 < n ∧ stricmp buf selfPath = 0 ∧
      h ≠ 0 ∧ x = 0 ∧
      pre = front ++ queryEvents p hq n buf ++
        [.openProcess KILL_ACCESS FALSE p h, .outputMessage "Killing process %d" [toInt32 p]]

/-! ## `lrlib_set_log_level`

The message classes and the switch values come from the engine's header `lrun.h`, which
the repository does not hold: they are parameters here.  The logging calls have a trace
of their own. -/

/-- The constants of `lrun.h` that `lrlib_set_log_level` names. -/
structure LogClasses where
  LR_MSG_CLASS_DISABLE_LOG : Nat
  LR_MSG_CLASS_BRIEF_LOG : Nat
  LR_MSG_CLASS_EXTENDED_LOG : Nat
  LR_MSG_CLASS_RESULT_DATA : Nat
  LR_MSG_CLASS_PARAMETERS : Nat
  LR_MSG_CLASS_FULL_TRACE : Nat
  LR_MSG_CLASS_JIT_LOG_ON_ERROR : Nat
  LR_SWITCH_ON : Nat
  LR_SWITCH_OFF : Nat

/-- The classes are distinct bits of a 32-bit word and `LR_MSG_CLASS_DISABLE_LOG` is 0. -/
def DistinctBits (C : LogClasses) : Prop :=
  C.LR_MSG_CLASS_DISABLE_LOG = 0 ∧
  ∃ b e r p f j : Nat, [b, e, r, p, f, j].Nodup ∧ (∀ i ∈ [b, e, r, p, f, j], i < 32) ∧
    C.LR_MSG_CLASS_BRIEF_LOG = 2 ^ b ∧ C.LR_MSG_CLASS_EXTENDED_LOG = 2 ^ e ∧
    C.LR_MSG_CLASS_RESULT_DATA = 2 ^ r ∧ C.LR_MSG_CLASS_PARAMETERS = 2 ^ p ∧
    C.LR_MSG_CLASS_FULL_TRACE = 2 ^ f ∧ C.LR_MSG_CLASS_JIT_LOG_ON_ERROR = 2 ^ j

/-- The bits drawn by `lrlib_print_log_options`: brief 0, result data 1, parameters 2,
full trace 3, extended 4, just-in-time 9. -/
def drawnClasses : LogClasses :=
  { LR_MSG_CLASS_DISABLE_LOG := 0, LR_MSG_CLASS_BRIEF_LOG := 1,
    LR_MSG_CLASS_EXTENDED_LOG := 16, LR_MSG_CLASS_RESULT_DATA := 2,
    LR_MSG_CLASS_PARAMETERS := 4, LR_MSG_CLASS_FULL_TRACE := 8,
    LR_MSG_CLASS_JIT_LOG_ON_ERROR := 512, LR_SWITCH_ON := 1, LR_SWITCH_OFF := 0 }

namespace Log

/-- One call made to the engine by `lrlib_set_log_level`, with what it returned. -/
inductive LogCall where
  | errorMessage (text : String)
  | abort
  | setDebugMessage (messageLevel : Nat) (onOff : Nat)
  | getDebugMessage (result : Nat)
  deriving DecidableEq, Repr

/-- The engine's logging primitives, as step functions on a state. -/
structure LogEngine (σ : Type) where
  lr_set_debug_message : Nat → Nat → σ → σ
  lr_get_debug_message : σ → Nat × σ

/-- Engine state together with the calls made so far (oldest first). -/
structure LogWorld (σ : Type) where
  os : σ
  calls : List LogCall

/-- How a call of `lrlib_set_log_level` ends. -/
inductive Outcome (σ : Type) where
  /-- The loop read `valid_log_settings` outside its entries. -/
  | outOfRange
  /-- The script was stopped by `lr_abort`. -/
  | aborted (w : LogWorld σ)
  /-- The function returned. -/
  | returned (w : LogWorld σ)

section LogModel
variable {σ : Type}

def lr_error_message (text : String) (w : LogWorld σ) : LogWorld σ :=
  ⟨w.os, w.calls ++ [LogCall.errorMessage text]⟩

def lr_abort (w : LogWorld σ) : LogWorld σ :=
  ⟨w.os, w.calls ++ [LogCall.abort]⟩

def lr_set_debug_message (G : LogEngine σ) (messageLevel onOff : Nat) (w : LogWorld σ) :
    LogWorld σ :=
  ⟨G.lr_set_debug_message messageLevel onOff w.os,
    w.calls ++ [LogCall.setDebugMessage messageLevel onOff]⟩

def lr_get_debug_message (G : LogEngine σ) (w : LogWorld σ) : Nat × LogWorld σ :=
  let r := G.lr_get_debug_message w.os
  (u32 r.1, ⟨r.2, w.calls ++ [LogCall.getDebugMessage (u32 r.1)]⟩)

/-- The array `valid_log_settings` of `lrlib_set_log_level`, an array of `int`. -/
def valid_log_settings (C : LogClasses) : List Int :=
  [ toInt32 C.LR_MSG_CLASS_DISABLE_LOG,
    toInt32 C.LR_MSG_CLASS_BRIEF_LOG,
    toInt32 C.LR_MSG_CLASS_EXTENDED_LOG,
    toInt32 (C.LR_MSG_CLASS_EXTENDED_LOG ||| C.LR_MSG_CLASS_PARAMETERS),
    toInt32 (C.LR_MSG_CLASS_EXTENDED_LOG ||| C.LR_MSG_CLASS_RESULT_DATA),
    toInt32 (C.LR_MSG_CLASS_EXTENDED_LOG ||| C.LR_MSG_CLASS_PARAMETERS |||
      C.LR_MSG_CLASS_RESULT_DATA),
    toInt32 (C.LR_MSG_CLASS_EXTENDED_LOG ||| C.LR_MSG_CLASS_FULL_TRACE),
    toInt32 (C.LR_MSG_CLASS_EXTENDED_LOG ||| C.LR_MSG_CLASS_PARAMETERS |||
      C.LR_MSG_CLASS_FULL_TRACE),
    toInt32 (C.LR_MSG_CLASS_EXTENDED_LOG ||| C.LR_MSG_CLASS_PARAMETERS |||
      C.LR_MSG_CLASS_RESULT_DATA ||| C.LR_MSG_CLASS_FULL_TRACE),
    toInt32 (C.LR_MSG_CLASS_JIT_LOG_ON_ERROR ||| C.LR_MSG_CLASS_BRIEF_LOG),
    toInt32 (C.LR_MSG_CLASS_JIT_LOG_ON_ERROR ||| C.LR_MSG_CLASS_EXTENDED_LOG),
    toInt32 (C.LR_MSG_CLASS_JIT_LOG_ON_ERROR ||| C.LR_MSG_CLASS_EXTENDED_LOG |||
      C.LR_MSG_CLASS_PARAMETERS),
    toInt32 (C.LR_MSG_CLASS_JIT_LOG_ON_ERROR ||| C.LR_MSG_CLASS_EXTENDED_LOG |||
      C.LR_MSG_CLASS_RESULT_DATA),
    toInt32 (C.LR_MSG_CLASS_JIT_LOG_ON_ERROR ||| C.LR_MSG_CLASS_EXTENDED_LOG |||
      C.LR_MSG_CLASS_PARAMETERS ||| C.LR_MSG_CLASS_RESULT_DATA),
    toInt32 (C.LR_MSG_CLASS_JIT_LOG_ON_ERROR ||| C.LR_MSG_CLASS_EXTENDED_LOG |||
      C.LR_MSG_CLASS_FULL_TRACE),
    toInt32 (C.LR_MSG_CLASS_JIT_LOG_ON_ERROR ||| C.LR_MSG_CLASS_EXTENDED_LOG |||
      C.LR_MSG_CLASS_PARAMETERS ||| C.LR_MSG_CLASS_FULL_TRACE),
    toInt32 (C.LR_MSG_CLASS_JIT_LOG_ON_ERROR ||| C.LR_MSG_CLASS_EXTENDED_LOG |||
      C.LR_MSG_CLASS_PARAMETERS ||| C.LR_MSG_CLASS_RESULT_DATA |||
      C.LR_MSG_CLASS_FULL_TRACE) ]

/-- The validation loop over the indices still to visit: `some true` when an entry
equals `new_log_options` (the `break`), `some false` when the indices run out, `none`
when an index is outside the array.  The `int` entry is converted to `unsigned int` for
the comparison. -/
def checkFrom (table : List Int) (new_log_options : Nat) : List Nat → Option Bool
  | [] => some false
  | i :: rest =>
    match table[i]? with
    | none => none
    | some v =>
      if new_log_options = intToU32 v then some true
      else checkFrom table new_log_options rest

/-- The value of `is_valid` after `for (i=0; i<17; i++)`. -/
def is_valid (C : LogClasses) (new_log_options : Nat) : Option Bool :=
  checkFrom (valid_log_settings C) new_log_options (List.range 17)

/-- `lrlib_set_log_level`; the argument is stored in an `unsigned int`. -/
def lrlib_set_log_level (G : LogEngine σ) (C : LogClasses) (new_log_options : Nat)
    (w : LogWorld σ) : Outcome σ :=
  let new_log_options := u32 new_log_options
  match is_valid C new_log_options with
  | none => .outOfRange
  | some false =>
    let w := lr_error_message "Invalid logging setting. You may use one of the following:" w
    .aborted (lr_abort w)
  | some true =>
    let w := lr_set_debug_message G C.LR_MSG_CLASS_DISABLE_LOG C.LR_SWITCH_ON w
    let w := lr_set_debug_message G new_log_options C.LR_SWITCH_ON w
    let (current, w) := lr_get_debug_message G w
    if current &&& C.LR_MSG_CLASS_JIT_LOG_ON_ERROR ≠ 0 ∧
        ¬ (new_log_options &&& C.LR_MSG_CLASS_JIT_LOG_ON_ERROR ≠ 0) then
      .returned (lr_set_debug_message G C.LR_MSG_CLASS_JIT_LOG_ON_ERROR C.LR_SWITCH_OFF w)
    else .returned w

end LogModel

/-- An engine whose state is the word of enabled classes: a class switched on is ORed in
(class 0 clears the word), a class switched off is removed. -/
def wordEngine (C : LogClasses) : LogEngine Nat where
  lr_set_debug_message := fun level onOff word =>
    if onOff = C.LR_SWITCH_ON then (if level = 0 then 0 else word ||| level)
    else word &&& (4294967295 ^^^ level)
  lr_get_debug_message := fun word => (word, word)

/-- A log world in which nothing has been called yet. -/
def start {σ : Type} (s : σ) : LogWorld σ := ⟨s, []⟩

end Log

/-! ## Lemmas -/

theorem u32_lt (n : Nat) : u32 n < 4294967296 := by
  unfold u32; omega

theorem u32_of_lt {n : Nat} (h : n < 4294967296) : u32 n = n := by
  unfold u32; omega

theorem intToU32_toInt32 (n : Nat) : intToU32 (toInt32 n) = u32 n := by
  unfold intToU32 toInt32 u32
  split <;> simp only [Int.ofNat_eq_coe] <;> omega

theorem intToU32_MAX_PATH : intToU32 MAX_PATH = 260 := by decide

theorem justified_of_quiet (ids : List Nat) (self : Nat) (selfPath : List Nat)
    (tr : List Event) (hq : ∀ e ∈ tr, isTerminate e = false) :
    Justified ids self selfPath tr := by
  intro pre post h x r heq
  have := hq (Event.terminateProcess h x r) (by rw [heq]; simp)
  simp [isTerminate] at this

theorem justified_append (ids : List Nat) (self : Nat) (selfPath : List Nat)
    (A B : List Event) (hA : Justified ids self selfPath A)
    (hB : Justified ids self selfPath B) : Justified ids self selfPath (A ++ B) := by
  intro pre post h x r heq
  rcases List.append_eq_append_iff.1 heq with ⟨a', hpre, hb⟩ | ⟨c', ha, hrest⟩
  · obtain ⟨front, p, hq, n, buf, h1, h2, h3, h4, h5, h6, h7, h8⟩ := hB a' post h x r hb
    exact ⟨A ++ front, p, hq, n, buf, h1, h2, h3, h4, h5, h6, h7, by
      rw [hpre, h8]; simp⟩
  · cases c' with
    | nil =>
      simp only [List.nil_append] at hrest
      obtain ⟨front, p, hq, n, buf, -, -, -, -, -, -, -, h8⟩ := hB [] post h x r hrest.symm
      simp at h8
    | cons c cs =>
      simp only [List.cons_append, List.cons.injEq] at hrest
      obtain ⟨rfl, -⟩ := hrest
      exact hA pre cs h x r ha

theorem justified_mono (ids ids' : List Nat) (self : Nat) (selfPath : List Nat)
    (tr : List Event) (hsub : ∀ p ∈ ids, p ∈ ids')
    (hJ : Justified ids self selfPath tr) : Justified ids' self selfPath tr := by
  intro pre post h x r heq
  obtain ⟨front, p, hq, n, buf, h1, rest⟩ := hJ pre post h x r heq
  exact ⟨front, p, hq, n, buf, hsub p h1, rest⟩

theorem split_unique (A B pre post : List Event) (t e : Event)
    (hA : ∀ a ∈ A, isTerminate a = false) (hB : ∀ b ∈ B, isTerminate b = false)
    (he : isTerminate e = true) (heq : A ++ t :: B = pre ++ e :: post) :
    pre = A ∧ e = t ∧ post = B := by
  induction A generalizing pre with
  | nil =>
    cases pre with
    | nil =>
      simp only [List.nil_append, List.cons.injEq] at heq
      exact ⟨rfl, heq.1.symm, heq.2.symm⟩
    | cons c cs =>
      simp only [List.nil_append, List.cons_append, List.cons.injEq] at heq
      have := hB e (by rw [heq.2]; simp)
      rw [he] at this; cases this
  | cons a as ih =>
    cases pre with
    | nil =>
      simp only [List.nil_append, List.cons_append, List.cons.injEq] at heq
      have := hA a (List.mem_cons_self _ _)
      rw [heq.1, he] at this; cases this
    | cons c cs =>
      simp only [List.cons_append, List.cons.injEq] at heq
      obtain ⟨h1, h2, h3⟩ := ih cs (fun x hx => hA x (List.mem_cons_of_mem _ hx)) heq.2
      exact ⟨by rw [heq.1, h1], h2, h3⟩

theorem queryShape_quiet (pid : Nat) (res : Int) (path : List Nat) (seg : List Event)
    (h : QueryShape pid res path seg) : ∀ e ∈ seg, isTerminate e = false := by
  cases h <;> simp [queryEvents, isTerminate]

theorem justified_iter (self : Nat) (selfPath : List Nat) (p : Nat) (seg : List Event)
    (d : Int) (h : IterShape self selfPath p seg d) : Justified [p] self selfPath seg := by
  cases h with
  | own _ => exact justified_of_quiet _ _ _ _ (by simp)
  | unresolved res path seg _ hq _ => exact justified_of_quiet _ _ _ _ (queryShape_quiet _ _ _ _ hq)
  | mismatch res path seg _ hq _ _ => exact justified_of_quiet _ _ _ _ (queryShape_quiet _ _ _ _ hq)
  | locked hq n buf _ _ _ _ =>
    exact justified_of_quiet _ _ _ _ (by simp [queryEvents, isTerminate])
  | attempted hq n buf h r hs hne hn hm hh =>
    intro pre post h' x r' heq
    have key := split_unique
      (queryEvents p hq n buf ++ [.openProcess KILL_ACCESS FALSE p h,
        .outputMessage "Killing process %d" [toInt32 p]])
      [.closeHandle h] pre post (.terminateProcess h 0 r) (.terminateProcess h' x r')
      (by simp [queryEvents, isTerminate]) (by simp [isTerminate]) rfl
      (by rw [← heq]; simp [killEvents])
    obtain ⟨k1, k2, -⟩ := key
    simp only [Event.terminateProcess.injEq] at k2
    obtain ⟨rfl, rfl, rfl⟩ := k2
    exact ⟨[], p, hq, n, buf, by simp, hs, hne, hn, hm, hh, rfl, by rw [k1]; simp⟩

theorem justified_loop (self : Nat) (selfPath : List Nat) (ids : List Nat)
    (tr : List Event) (n : Int) (h : LoopShape self selfPath ids tr n) :
    Justified ids self selfPath tr := by
  induction h with
  | nil => exact justified_of_quiet _ _ _ _ (by simp)
  | cons p ps seg rest d total hi _ ih =>
    apply justified_append
    · exact justified_mono [p] _ _ _ _ (by simp) (justified_iter _ _ _ _ _ hi)
    · exact justified_mono ps _ _ _ _ (fun q hq => List.mem_cons_of_mem _ hq) ih

theorem queryShape_clean (c pid : Nat) (res : Int) (path : List Nat) (seg : List Event)
    (h : QueryShape pid res path seg) :
    ∀ e ∈ seg, targets c e = false ∧ isGetPid e = false ∧ isKillOpen e = false := by
  cases h <;> simp [queryEvents, targets, isGetPid, isKillOpen, QUERY_ACCESS,
    PROCESS_QUERY_INFORMATION, PROCESS_VM_READ, PROCESS_TERMINATE]

theorem queryShape_noise (pid : Nat) (res : Int) (path : List Nat) (seg : List Event)
    (h : QueryShape pid res path seg) :
    ∀ e ∈ seg, isError e = false ∧ isEnum e = false := by
  cases h <;> simp [queryEvents, isError, isEnum]

theorem iter_clean (self : Nat) (selfPath : List Nat) (p : Nat) (seg : List Event)
    (d : Int) (h : IterShape self selfPath p seg d) :
    ∀ e ∈ seg, targets self e = false ∧ isGetPid e = false := by
  cases h with
  | own _ => simp
  | unresolved res path seg _ hq _ =>
    exact fun e he => ⟨(queryShape_clean self _ _ _ _ hq e he).1,
      (queryShape_clean self _ _ _ _ hq e he).2.1⟩
  | mismatch res path seg _ hq _ _ =>
    exact fun e he => ⟨(queryShape_clean self _ _ _ _ hq e he).1,
      (queryShape_clean self _ _ _ _ hq e he).2.1⟩
  | locked hq n buf hs _ _ _ =>
    simp [queryEvents, targets, isGetPid, QUERY_ACCESS, KILL_ACCESS,
      PROCESS_QUERY_INFORMATION, PROCESS_VM_READ, PROCESS_TERMINATE, hs]
  | attempted hq n buf h r hs _ _ _ _ =>
    simp [queryEvents, killEvents, targets, isGetPid, QUERY_ACCESS, KILL_ACCESS,
      PROCESS_QUERY_INFORMATION, PROCESS_VM_READ, PROCESS_TERMINATE, hs]

theorem loop_clean (self : Nat) (selfPath : List Nat) (ids : List Nat)
    (tr : List Event) (n : Int) (h : LoopShape self selfPath ids tr n) :
    ∀ e ∈ tr, targets self e = false ∧ isGetPid e = false := by
  induction h with
  | nil => simp
  | cons p ps seg rest d total hi _ ih =>
    intro e he
    rcases List.mem_append.1 he with h1 | h1
    · exact iter_clean _ _ _ _ _ hi e h1
    · exact ih e h1

theorem killsIn_of_quiet (tr : List Event) (h : ∀ e ∈ tr, isTerminate e = false) :
    killsIn tr = 0 := by
  unfold killsIn
  rw [List.countP_eq_zero]
  intro e he
  have := h e he
  cases e <;> simp_all [isKill, isTerminate]

theorem iter_kills (self : Nat) (selfPath : List Nat) (p : Nat) (seg : List Event)
    (d : Int) (h : IterShape self selfPath p seg d) :
    d = (killsIn seg : Int) ∧ (p = self → d = 0) ∧ 0 ≤ d ∧ d ≤ 1 := by
  cases h with
  | own hs => simp [killsIn]
  | unresolved res path seg hs hq _ =>
    rw [killsIn_of_quiet _ (queryShape_quiet _ _ _ _ hq)]; simp
  | mismatch res path seg hs hq _ _ =>
    rw [killsIn_of_quiet _ (queryShape_quiet _ _ _ _ hq)]; simp
  | locked hq n buf hs _ _ _ =>
    rw [killsIn_of_quiet _ (by simp [queryEvents, isTerminate])]; simp
  | attempted hq n buf h r hs _ _ _ _ =>
    by_cases hr : r = 0
    · simp [killsIn, queryEvents, killEvents, isKill, hr, hs]
    · simp [killsIn, queryEvents, killEvents, isKill, hr, hs]

theorem loop_kills (self : Nat) (selfPath : List Nat) (ids : List Nat)
    (tr : List Event) (n : Int) (h : LoopShape self selfPath ids tr n) :
    n = (killsIn tr : Int) ∧ 0 ≤ n ∧ n ≤ ((ids.filter (fun p => p ≠ self)).length : Int) := by
  induction h with
  | nil => simp [killsIn]
  | cons p ps seg rest d total hi _ ih =>
    obtain ⟨h1, h2, h3, h4⟩ := iter_kills _ _ _ _ _ hi
    obtain ⟨i1, i2, i3⟩ := ih
    refine ⟨?_, by omega, ?_⟩
    · rw [h1, i1]; simp [killsIn, List.countP_append]
    · by_cases hs : p = self
      · have hf : (p :: ps).filter (fun p => p ≠ self) = ps.filter (fun p => p ≠ self) := by
          rw [List.filter_cons_of_neg]; simp [hs]
        rw [hf]
        have := h2 hs
        omega
      · have hf : (p :: ps).filter (fun p => p ≠ self) =
            p :: ps.filter (fun p => p ≠ self) := by
          rw [List.filter_cons_of_pos]; simp [hs]
        rw [hf, List.length_cons]
        push_cast
        omega

theorem balance_append (held : List Nat) (a b : List Event) :
    balance held (a ++ b) = (balance held a).bind (fun h => balance h b) := by
  induction a generalizing held with
  | nil => simp [balance]
  | cons e es ih =>
    cases e <;> simp only [List.cons_append, balance, List.append_eq, ih]
    split <;> simp

theorem balance_query (pid : Nat) (res : Int) (path : List Nat) (seg : List Event)
    (h : QueryShape pid res path seg) (held : List Nat) : balance held seg = some held := by
  cases h with
  | denied => simp [balance]
  | answered hq n buf hne => simp [queryEvents, balance, hne]

theorem balance_iter (self : Nat) (selfPath : List Nat) (p : Nat) (seg : List Event)
    (d : Int) (h : IterShape self selfPath p seg d) (held : List Nat) :
    balance held seg = some held := by
  cases h with
  | own _ => simp [balance]
  | unresolved res path seg _ hq _ => exact balance_query _ _ _ _ hq held
  | mismatch res path seg _ hq _ _ => exact balance_query _ _ _ _ hq held
  | locked hq n buf _ hne _ _ => simp [queryEvents, balance, hne]
  | attempted hq n buf h r _ hne _ _ hh => simp [queryEvents, killEvents, balance, hne, hh]

theorem balance_loop (self : Nat) (selfPath : List Nat) (ids : List Nat)
    (tr : List Event) (n : Int) (h : LoopShape self selfPath ids tr n) (held : List Nat) :
    balance held tr = some held := by
  induction h with
  | nil => simp [balance]
  | cons p ps seg rest d total hi _ ih =>
    rw [balance_append, balance_iter _ _ _ _ _ hi held]
    simpa using ih

section Shapes
variable {σ : Type}

theorem query_shape (K : Kernel σ) (pid : Int) (w : World σ) :
    ∃ seg, QueryShape (intToU32 pid) (lrlibc_get_process_file_path K pid MAX_PATH w).1
        (lrlibc_get_process_file_path K pid MAX_PATH w).2.1 seg ∧
      (lrlibc_get_process_file_path K pid MAX_PATH w).2.2.trace = w.trace ++ seg := by
  unfold lrlibc_get_process_file_path
  simp only [OpenProcess, GetModuleFileNameExA, CloseHandle, intToU32_MAX_PATH]
  split
  · next h0 =>
    refine ⟨_, ?_, rfl⟩
    rw [h0]
    exact QueryShape.denied
  · next h0 =>
    refine ⟨_, QueryShape.answered _ _ _ h0, ?_⟩
    simp [queryEvents]

theorem iter_shape (K : Kernel σ) (self : Nat) (selfPath : List Nat) (w : World σ)
    (k : Int) (p : Nat) (hp : p < 4294967296) :
    ∃ seg d, IterShape self selfPath p seg d ∧
      (scanBody K self selfPath (w, k) p).1.trace = w.trace ++ seg ∧
      (scanBody K self selfPath (w, k) p).2 = k + d := by
  unfold scanBody
  by_cases hs : p = self
  · exact ⟨[], 0, IterShape.own hs, by simp [hs], by simp [hs]⟩
  · obtain ⟨seg, hq, ht⟩ := query_shape K (toInt32 p) w
    rw [intToU32_toInt32, u32_of_lt hp] at hq
    simp only [hs, if_false]
    generalize lrlibc_get_process_file_path K (toInt32 p) MAX_PATH w = r at hq ht ⊢
    obtain ⟨res, path, w1⟩ := r
    simp only at hq ht ⊢
    by_cases hres : res ≤ 0
    · exact ⟨seg, 0, IterShape.unresolved _ _ _ hs hq hres, by simp [hres, ht],
        by simp [hres]⟩
    · simp only [hres, if_false]
      by_cases hm : stricmp path selfPath = 0
      · simp only [hm, ne_eq, not_true_eq_false, if_false]
        cases hq with
        | denied => exact absurd (le_refl 0) hres
        | answered hq n buf hne =>
          have hn : ¬ res = 0 := by omega
          simp only [hn, if_false] at hm
          simp only [OpenProcess, lr_output_message, TerminateProcess, CloseHandle]
          by_cases hh : u32 (K.OpenProcess KILL_ACCESS FALSE p w1.os).1 = 0
          · refine ⟨_, 0, IterShape.locked hq res buf hs hne (by omega) hm, ?_, ?_⟩
            · simp [hh, ht]
            · simp [hh]
          · refine ⟨_, _, IterShape.attempted hq res buf _
              (toInt32 (K.TerminateProcess (u32 (K.OpenProcess KILL_ACCESS FALSE p w1.os).1)
                0 (K.OpenProcess KILL_ACCESS FALSE p w1.os).2).1)
              hs hne (by omega) hm hh, ?_, ?_⟩
            · simp [hh, ht, killEvents]
            · simp only [hh, if_false]
              split <;> simp_all
      · exact ⟨seg, 0, IterShape.mismatch _ _ _ hs hq (by omega) hm, by simp [hm, ht],
          by simp [hm]⟩

theorem loop_shape (K : Kernel σ) (self : Nat) (selfPath : List Nat) (ids : List Nat)
    (hids : ∀ p ∈ ids, p < 4294967296) (w : World σ) (k : Int) :
    ∃ tr n, LoopShape self selfPath ids tr n ∧
      (scanLoop K self selfPath ids (w, k)).1.trace = w.trace ++ tr ∧
      (scanLoop K self selfPath ids (w, k)).2 = k + n := by
  induction ids generalizing w k with
  | nil => exact ⟨[], 0, LoopShape.nil, by simp [scanLoop], by simp [scanLoop]⟩
  | cons p ps ih =>
    obtain ⟨seg, d, hshape, htr, hk⟩ :=
      iter_shape K self selfPath w k p (hids p (List.mem_cons_self _ _))
    obtain ⟨rest, n, hloop, htr2, hk2⟩ :=
      ih (fun q hq => hids q (List.mem_cons_of_mem _ hq))
        (scanBody K self selfPath (w, k) p).1 (scanBody K self selfPath (w, k) p).2
    refine ⟨seg ++ rest, d + n, LoopShape.cons p ps seg rest d n hshape hloop, ?_, ?_⟩
    · simp only [scanLoop, List.foldl_cons] at htr2 ⊢
      rw [htr2, htr, List.append_assoc]
    · simp only [scanLoop, List.foldl_cons] at hk2 ⊢
      rw [hk2, hk, add_assoc]

theorem snapshotOf_lt (processIds : Nat → Nat) (processIdCount : Int) :
    ∀ p ∈ snapshotOf processIds processIdCount, p < 4294967296 := by
  intro p hp
  simp only [snapshotOf, List.mem_map] at hp
  obtain ⟨i, _, rfl⟩ := hp
  exact u32_lt _

theorem snapshotOf_length_lt (processIds : Nat → Nat) (b : Nat) :
    (snapshotOf processIds (toInt32 (u32 b / ELEMENT_SIZE))).length < 1073741824 := by
  simp only [snapshotOf, List.length_map, List.length_range, toInt32, u32, ELEMENT_SIZE]
  split <;> simp only [Int.ofNat_eq_coe] <;> omega

/-- Every way the straight-line part can end, with the calls it made. -/
theorem prologue_cases (K : Kernel σ) (w : World σ) :
    (∃ rc w', rc ≠ 0 ∧ prologue K w = .aborted w' ∧
      w'.trace = w.trace ++ [.loadDll "kernel32.dll" rc,
        .errorMessage "Error loading '%s' (error code %d).", .abort]) ∨
    (∃ rc w', rc ≠ 0 ∧ prologue K w = .aborted w' ∧
      w'.trace = w.trace ++ [.loadDll "kernel32.dll" 0, .loadDll "psapi.dll" rc,
        .errorMessage "Error loading '%s' (error code %d).", .abort]) ∨
    (∃ c res path seg w', QueryShape c res path seg ∧ res ≤ 0 ∧
      prologue K w = .returned 0 w' ∧
      w'.trace = w.trace ++ [.loadDll "kernel32.dll" 0, .loadDll "psapi.dll" 0,
        .getCurrentProcessId c] ++ seg ++
        [.errorMessage "Error querying the current process."]) ∨
    (∃ c hq n buf b w', hq ≠ 0 ∧ 0 < n ∧ prologue K w = .returned 0 w' ∧
      w'.trace = w.trace ++ prologueEvents c hq n buf 0 b ++
        [.errorMessage "Error enumerating processes."]) ∨
    (∃ c hq n buf r b snap w', hq ≠ 0 ∧ 0 < n ∧ r ≠ 0 ∧ c < 4294967296 ∧
      ((∀ p ∈ snap, p < 4294967296) ∧ snap.length < 1073741824) ∧
      prologue K w = .scanning c buf snap w' ∧
      w'.trace = w.trace ++ prologueEvents c hq n buf r b) := by
  unfold prologue
  simp only [lrlibc_load_dll, lr_load_dll, lr_error_message, lr_abort]
  by_cases h1 : toInt32 (K.lr_load_dll "kernel32.dll" w.os).1 = 0
  · simp only [h1, ne_eq, not_true_eq_false, if_false]
    by_cases h2 : toInt32 (K.lr_load_dll "psapi.dll" (K.lr_load_dll "kernel32.dll" w.os).2).1 = 0
    · simp only [h2, ne_eq, not_true_eq_false, if_false]
      generalize hwA : (⟨(K.lr_load_dll "psapi.dll" (K.lr_load_dll "kernel32.dll" w.os).2).2,
        w.trace ++ [Event.loadDll "kernel32.dll" 0] ++ [Event.loadDll "psapi.dll" 0]⟩ :
          World σ) = wA
      have hA : wA.trace =
          w.trace ++ [Event.loadDll "kernel32.dll" 0, Event.loadDll "psapi.dll" 0] := by
        rw [← hwA]; simp
      simp only [GetCurrentProcessId]
      have key := query_shape K (toInt32 (u32 (K.GetCurrentProcessId wA.os).1))
        ⟨(K.GetCurrentProcessId wA.os).2,
          wA.trace ++ [Event.getCurrentProcessId (u32 (K.GetCurrentProcessId wA.os).1)]⟩
      obtain ⟨seg, hq, ht⟩ := key
      rw [intToU32_toInt32, u32_of_lt (u32_lt _)] at hq
      generalize lrlibc_get_process_file_path K (toInt32 (u32 (K.GetCurrentProcessId wA.os).1))
        MAX_PATH ⟨(K.GetCurrentProcessId wA.os).2,
          wA.trace ++ [Event.getCurrentProcessId (u32 (K.GetCurrentProcessId wA.os).1)]⟩ = r
        at hq ht ⊢
      obtain ⟨res, path, wB⟩ := r
      simp only at hq ht ⊢
      split
      · next hres =>
        refine Or.inr (Or.inr (Or.inl ⟨u32 (K.GetCurrentProcessId wA.os).1, res, path, seg, _,
          hq, hres, rfl, ?_⟩))
        simp [ht, hA]
      · next hres =>
        simp only [EnumProcesses]
        cases hq with
        | denied => exact absurd (le_refl 0) hres
        | answered hq n buf hne =>
          have hn : ¬ res = 0 := by omega
          simp only [hn, if_false]
          split
          · next hen =>
            refine Or.inr (Or.inr (Or.inr (Or.inl ⟨u32 (K.GetCurrentProcessId wA.os).1, hq, res, buf,
              u32 (K.EnumProcesses (MAX_PROCESS_ID_COUNT * ELEMENT_SIZE) wB.os).1.2.2, _,
              hne, by omega, rfl, ?_⟩)))
            simp only [ht, hA, prologueEvents, hen]
            simp [MAX_PROCESS_ID_COUNT, ELEMENT_SIZE]
          · next hen =>
            refine Or.inr (Or.inr (Or.inr (Or.inr ⟨u32 (K.GetCurrentProcessId wA.os).1, hq, res, buf, _,
              u32 (K.EnumProcesses (MAX_PROCESS_ID_COUNT * ELEMENT_SIZE) wB.os).1.2.2, _, _,
              hne, by omega, hen, u32_lt _, ⟨snapshotOf_lt _ _, snapshotOf_length_lt _ _⟩,
              rfl, ?_⟩)))
            simp only [ht, hA, prologueEvents, MAX_PROCESS_ID_COUNT, ELEMENT_SIZE]
            simp
    · simp only [h2, ne_eq, not_false_eq_true, if_true]
      exact Or.inr (Or.inl ⟨_, _, h2, rfl, by simp⟩)
  · simp only [h1, ne_eq, not_false_eq_true, if_true]
    exact Or.inl ⟨_, _, h1, rfl, by simp⟩

theorem prologue_scanning (K : Kernel σ) (w w1 : World σ) (self : Nat)
    (selfPath snap : List Nat) (h : prologue K w = .scanning self selfPath snap w1) :
    ∃ hq n r b, hq ≠ 0 ∧ 0 < n ∧ r ≠ 0 ∧
      w1.trace = w.trace ++ prologueEvents self hq n selfPath r b ∧
      self < 4294967296 ∧ ((∀ p ∈ snap, p < 4294967296) ∧ snap.length < 1073741824) := by
  rcases prologue_cases K w with ⟨_, _, _, h', _⟩ | ⟨_, _, _, h', _⟩ | ⟨_, _, _, _, _, _, _, h', _⟩ |
    ⟨_, _, _, _, _, _, _, _, h', _⟩ | ⟨c, hq, n, buf, r, b, snap', w', h1, h2, h3, h4, h5, h', h6⟩
  · rw [h] at h'; cases h'
  · rw [h] at h'; cases h'
  · rw [h] at h'; cases h'
  · rw [h] at h'; cases h'
  · rw [h] at h'; cases h'
    exact ⟨hq, n, r, b, h1, h2, h3, h6, h4, h5⟩

theorem run_scanning (K : Kernel σ) (w w1 : World σ) (self : Nat)
    (selfPath snap : List Nat) (h : prologue K w = .scanning self selfPath snap w1) :
    lrlibc_kill_all_mmdrv K w =
      (some (scanLoop K self selfPath snap (w1, 0)).2,
        (scanLoop K self selfPath snap (w1, 0)).1) := by
  unfold lrlibc_kill_all_mmdrv
  rw [h]

theorem run_aborted (K : Kernel σ) (w w' : World σ) (h : prologue K w = .aborted w') :
    lrlibc_kill_all_mmdrv K w = (none, w') := by
  unfold lrlibc_kill_all_mmdrv
  rw [h]

theorem run_returned (K : Kernel σ) (w w' : World σ) (v : Int)
    (h : prologue K w = .returned v w') :
    lrlibc_kill_all_mmdrv K w = (some v, w') := by
  unfold lrlibc_kill_all_mmdrv
  rw [h]

/-- The whole run when the scan is reached: the straight-line calls, then the scan. -/
theorem run_shape (K : Kernel σ) (s : σ) (w1 : World σ) (self : Nat)
    (selfPath snap : List Nat)
    (h : prologue K (fresh s) = .scanning self selfPath snap w1) :
    ∃ hq n r b tr total, hq ≠ 0 ∧ 0 < n ∧ r ≠ 0 ∧ self < 4294967296 ∧
      LoopShape self selfPath snap tr total ∧
      (lrlibc_kill_all_mmdrv K (fresh s)).2.trace =
        prologueEvents self hq n selfPath r b ++ tr ∧
      (lrlibc_kill_all_mmdrv K (fresh s)).1 = some total := by
  obtain ⟨hq, n, r, b, h1, h2, h3, h4, h5, h6⟩ := prologue_scanning K _ _ _ _ _ h
  obtain ⟨tr, total, hl, ht, hk⟩ := loop_shape K self selfPath snap h6.1 w1 0
  refine ⟨hq, n, r, b, tr, total, h1, h2, h3, h5, hl, ?_, ?_⟩
  · rw [run_scanning K _ _ _ _ _ h, ht, h4]
    simp [fresh]
  · rw [run_scanning K _ _ _ _ _ h, hk]
    simp

/-- Every run either ends before the scan, having opened nothing for termination and
terminated nothing, or reaches the scan. -/
theorem run_cases (K : Kernel σ) (s : σ) :
    ((∀ e ∈ (lrlibc_kill_all_mmdrv K (fresh s)).2.trace,
        isKillOpen e = false ∧ isTerminate e = false) ∧
      ((lrlibc_kill_all_mmdrv K (fresh s)).1 = none ∨
        (lrlibc_kill_all_mmdrv K (fresh s)).1 = some 0)) ∨
    ∃ self selfPath snap w1, prologue K (fresh s) = .scanning self selfPath snap w1 := by
  rcases prologue_cases K (fresh s) with ⟨_, w', _, h', ht⟩ | ⟨_, w', _, h', ht⟩ |
    ⟨_, _, _, _, w', hq, _, h', ht⟩ | ⟨_, _, _, _, _, w', _, _, h', ht⟩ |
    ⟨c, _, _, buf, _, _, snap, w', _, _, _, _, _, h', _⟩
  · left
    rw [run_aborted K _ _ h', ht]
    simp [isKillOpen, isTerminate, fresh]
  · left
    rw [run_aborted K _ _ h', ht]
    simp [isKillOpen, isTerminate, fresh]
  · left
    rw [run_returned K _ _ _ h', ht]
    refine ⟨?_, Or.inr rfl⟩
    intro e he
    simp only [fresh, List.nil_append, List.mem_append, List.mem_cons, List.mem_singleton,
      List.not_mem_nil, or_false] at he
    rcases he with (he | he) | he
    · rcases he with rfl | rfl | rfl <;> simp [isKillOpen, isTerminate]
    · exact ⟨(queryShape_clean 0 _ _ _ _ hq e he).2.2, queryShape_quiet _ _ _ _ hq e he⟩
    · subst he; simp [isKillOpen, isTerminate]
  · left
    rw [run_returned K _ _ _ h', ht]
    simp [isKillOpen, isTerminate, prologueEvents, queryEvents, QUERY_ACCESS,
      PROCESS_QUERY_INFORMATION, PROCESS_VM_READ, PROCESS_TERMINATE, fresh]
  · exact Or.inr ⟨c, buf, snap, w', h'⟩

theorem kill_justified (K : Kernel σ) (s : σ) (self : Nat) (selfPath snap : List Nat)
    (w1 : World σ) (hp : prologue K (fresh s) = .scanning self selfPath snap w1) :
    Justified snap self selfPath (lrlibc_kill_all_mmdrv K (fresh s)).2.trace := by
  obtain ⟨hq, n, r', b, tr, total, -, -, -, -, hl, htr, -⟩ :=
    run_shape K s w1 self selfPath snap hp
  rw [htr]
  exact justified_append _ _ _ _ _
    (justified_of_quiet _ _ _ _ (by simp [prologueEvents, queryEvents, isTerminate]))
    (justified_loop _ _ _ _ _ hl)

/-- The run is the scan of the entries after `p` resumed from the iteration on `p`. -/
theorem run_split (K : Kernel σ) (s : σ) (self : Nat) (selfPath snap : List Nat)
    (w1 : World σ) (hp : prologue K (fresh s) = .scanning self selfPath snap w1)
    (pre post : List Nat) (p : Nat) (hs : snap = pre ++ p :: post) :
    (lrlibc_kill_all_mmdrv K (fresh s)).2 =
      (scanLoop K self selfPath post
        (scanBody K self selfPath (atEntry K self selfPath pre w1) p)).1 := by
  rw [run_scanning K _ _ _ _ _ hp, hs]
  simp [scanLoop, atEntry, List.foldl_append]

theorem attemptsIn_query (K : Kernel σ) (p : Nat) (w : World σ) :
    attemptsIn (queryAt K p w).2.2.trace = attemptsIn w.trace := by
  obtain ⟨seg, hq, ht⟩ := query_shape K (toInt32 p) w
  unfold queryAt
  rw [ht]
  have := queryShape_quiet _ _ _ _ hq
  simp only [attemptsIn, List.countP_append, add_right_eq_self, List.countP_eq_zero]
  intro e he
  simp [this e he]

theorem load_ok (K : Kernel σ) (path : String) (w w' : World σ)
    (h : lrlibc_load_dll K path w = (true, w')) :
    w'.trace = w.trace ++ [Event.loadDll path 0] := by
  unfold lrlibc_load_dll lr_load_dll at h
  simp only at h
  split at h
  · simp at h
  · next h0 =>
    simp only [ne_eq, not_not] at h0
    simp only [Prod.mk.injEq, true_and] at h
    rw [← h, h0]

end Shapes

/-! ## The run on the explicit table -/

theorem nextHandle_ne_zero (t : Nat) : nextHandle t ≠ 0 := by
  unfold nextHandle; omega

theorem u32_nextHandle (t : Nat) : u32 (nextHandle t) = nextHandle t := by
  unfold nextHandle u32; omega

theorem grants_query (q : Proc) : grants q QUERY_ACCESS = q.queryable := by
  have h1 : (QUERY_ACCESS &&& QUERY_ACCESS == 0) = false := by decide
  have h2 : (QUERY_ACCESS &&& PROCESS_TERMINATE == 0) = true := by decide
  unfold grants
  rw [h1, h2]
  simp

theorem grants_kill (q : Proc) : grants q KILL_ACCESS = (q.queryable && q.killable) := by
  have h1 : (KILL_ACCESS &&& QUERY_ACCESS == 0) = false := by decide
  have h2 : (KILL_ACCESS &&& PROCESS_TERMINATE == 0) = false := by decide
  unfold grants
  rw [h1, h2]
  simp

theorem table_load (path : String) (w : World Sys) :
    lrlibc_load_dll tableKernel path w = (true, ⟨w.os, w.trace ++ [Event.loadDll path 0]⟩) := by
  simp [lrlibc_load_dll, lr_load_dll, tableKernel, toInt32]

theorem table_enum (cb : Nat) (w : World Sys) :
    EnumProcesses tableKernel cb w =
      (toInt32 (Sys.enumProcesses cb w.os).1.1, (Sys.enumProcesses cb w.os).1.2.1,
        u32 (Sys.enumProcesses cb w.os).1.2.2,
        ⟨(Sys.enumProcesses cb w.os).2, w.trace ++ [Event.enumProcesses cb
          (toInt32 (Sys.enumProcesses cb w.os).1.1) (u32 (Sys.enumProcesses cb w.os).1.2.2)]⟩) :=
  rfl

theorem table_query (w : World Sys) (p : Nat) (hp : p < 4294967296) :
    (lrlibc_get_process_file_path tableKernel (toInt32 p) MAX_PATH w).1 =
      (tableQuery w.os.procs p).1 ∧
    (lrlibc_get_process_file_path tableKernel (toInt32 p) MAX_PATH w).2.1 =
      (tableQuery w.os.procs p).2 ∧
    ∃ t, (lrlibc_get_process_file_path tableKernel (toInt32 p) MAX_PATH w).2.2.os =
      { w.os with ticket := t } := by
  unfold lrlibc_get_process_file_path OpenProcess GetModuleFileNameExA CloseHandle tableQuery
  simp only [tableKernel, Sys.openProcess, intToU32_toInt32, u32_of_lt hp, intToU32_MAX_PATH]
  cases hfind : findProc w.os.procs p with
  | none =>
    simp [u32]
    exact ⟨w.os.ticket, rfl⟩
  | some q =>
    simp only [grants_query]
    cases hq : q.queryable with
    | false =>
      simp [u32]
      exact ⟨w.os.ticket, rfl⟩
    | true =>
      have hne := nextHandle_ne_zero w.os.ticket
      have hqa : QUERY_ACCESS &&& QUERY_ACCESS = QUERY_ACCESS := by decide
      simp only [if_true, u32_nextHandle, hne, if_false, Sys.getModuleFileNameExA, findHandle,
        List.find?_cons_of_pos, beq_self_eq_true, hqa, hfind, Sys.closeHandle]
      cases hn : q.named with
      | false =>
        simp [toInt32, dropHandle]
      | true =>
        simp [dropHandle]

theorem table_body (c : Nat) (sp : List Nat) (w : World Sys) (k : Int) (p : Nat)
    (hp : p < 4294967296) :
    (scanBody tableKernel c sp (w, k) p).2 = (reap c sp (w.os.procs, k) p).2 ∧
    ∃ t, (scanBody tableKernel c sp (w, k) p).1.os =
      { w.os with procs := (reap c sp (w.os.procs, k) p).1, ticket := t } := by
  unfold scanBody reap
  by_cases hc : p = c
  · simp only [hc, if_true, ne_eq, not_true_eq_false, false_and, if_false, true_and]
    exact ⟨w.os.ticket, rfl⟩
  · obtain ⟨h1, h2, t, h3⟩ := table_query w p hp
    simp only [hc, if_false, ne_eq, not_false_eq_true, true_and]
    generalize lrlibc_get_process_file_path tableKernel (toInt32 p) MAX_PATH w = r at h1 h2 h3 ⊢
    obtain ⟨res, path, w2⟩ := r
    simp only at h1 h2 h3 ⊢
    subst h1 h2
    unfold reaped
    by_cases hres : (tableQuery w.os.procs p).1 ≤ 0
    · have : ¬ 0 < (tableQuery w.os.procs p).1 := by omega
      simp only [hres, if_true, this, decide_False, Bool.false_and, Bool.false_eq_true,
        if_false, true_and]
      exact ⟨t, h3⟩
    · have hpos : 0 < (tableQuery w.os.procs p).1 := by omega
      simp only [hres, if_false, hpos, decide_True, Bool.true_and]
      by_cases hm : stricmp (tableQuery w.os.procs p).2 sp = 0
      · simp only [hm, ne_eq, not_true_eq_false, if_false, decide_True, Bool.true_and]
        simp only [OpenProcess, tableKernel, Sys.openProcess, h3, lr_output_message,
          TerminateProcess, CloseHandle]
        cases hfind : findProc w.os.procs p with
        | none =>
          simp [u32]
        | some q =>
          simp only [grants_kill]
          have hne := nextHandle_ne_zero t
          have hka : KILL_ACCESS &&& PROCESS_TERMINATE = PROCESS_TERMINATE := by decide
          by_cases hqk : (q.queryable && q.killable) = true
          · simp only [hqk, if_true, u32_nextHandle, hne, if_false, Sys.terminateProcess,
              findHandle, List.find?_cons_of_pos, beq_self_eq_true, hka, hfind,
              Sys.closeHandle, Bool.true_and]
            cases hmo : q.mortal with
            | false =>
              simp [toInt32, dropHandle]
            | true =>
              simp [toInt32, dropHandle]
          · simp [hqk, u32]
      · simp only [hm, ne_eq, not_false_eq_true, if_true, decide_False, Bool.false_and,
          Bool.false_eq_true, if_false, true_and]
        exact ⟨t, h3⟩

theorem table_loop (c : Nat) (sp : List Nat) (ids : List Nat)
    (hids : ∀ p ∈ ids, p < 4294967296) (w : World Sys) (k : Int) :
    (scanLoop tableKernel c sp ids (w, k)).2 = (ids.foldl (reap c sp) (w.os.procs, k)).2 ∧
    ∃ t, (scanLoop tableKernel c sp ids (w, k)).1.os =
      { w.os with procs := (ids.foldl (reap c sp) (w.os.procs, k)).1, ticket := t } := by
  induction ids generalizing w k with
  | nil => exact ⟨rfl, w.os.ticket, rfl⟩
  | cons p ps ih =>
    obtain ⟨h1, t, h2⟩ := table_body c sp w k p (hids p (List.mem_cons_self _ _))
    generalize hb : scanBody tableKernel c sp (w, k) p = b at h1 h2
    obtain ⟨w', k'⟩ := b
    simp only at h1 h2
    obtain ⟨i1, t2, i2⟩ := ih (fun q hq => hids q (List.mem_cons_of_mem _ hq)) w' k'
    have hacc : (w'.os.procs, k') = reap c sp (w.os.procs, k) p := by
      rw [h2, h1]
    simp only [scanLoop, List.foldl_cons, hb] at i1 i2 ⊢
    rw [hacc] at i1 i2
    refine ⟨i1, t2, ?_⟩
    rw [i2, h2]

theorem map_range_getD (f : Nat → Nat) (l : List Nat) :
    (List.range l.length).map (fun i => f (l.getD i 0)) = l.map f := by
  apply List.ext_getElem
  · simp
  · intro i h1 h2
    simp at h1 h2
    simp [List.getD_eq_getElem?_getD, h2]

theorem table_snapshot (procs : List Proc) :
    snapshotOf (fun i => ((procs.map Proc.pid).take (MAX_PROCESS_ID_COUNT * ELEMENT_SIZE / 4)).getD i 0)
      (toInt32 (u32 (4 * ((procs.map Proc.pid).take
        (MAX_PROCESS_ID_COUNT * ELEMENT_SIZE / 4)).length) / ELEMENT_SIZE)) =
    tableSnapshot procs := by
  have hc : MAX_PROCESS_ID_COUNT * ELEMENT_SIZE / 4 = 1024 := by decide
  rw [hc]
  unfold snapshotOf tableSnapshot
  have hlen : ((procs.map Proc.pid).take 1024).length ≤ 1024 := by simp
  generalize (procs.map Proc.pid).take 1024 = l at hlen ⊢
  have : (toInt32 (u32 (4 * l.length) / ELEMENT_SIZE)).toNat = l.length := by
    simp only [toInt32, u32, ELEMENT_SIZE]
    split <;> simp only [Int.ofNat_eq_coe] <;> omega
  rw [this]
  exact map_range_getD u32 l

theorem table_run (s : Sys) :
    (lrlibc_kill_all_mmdrv tableKernel (fresh s)).1 = some (tableRun s).2 ∧
    ∃ t, (lrlibc_kill_all_mmdrv tableKernel (fresh s)).2.os =
      { s with procs := (tableRun s).1, ticket := t } := by
  unfold lrlibc_kill_all_mmdrv prologue
  rw [table_load]
  simp only
  rw [table_load]
  simp only
  have hq := table_query (GetCurrentProcessId tableKernel
    ⟨s, [] ++ [Event.loadDll "kernel32.dll" 0] ++ [Event.loadDll "psapi.dll" 0]⟩).2
    (u32 s.self) (u32_lt _)
  have hg : (GetCurrentProcessId tableKernel
    ⟨s, [] ++ [Event.loadDll "kernel32.dll" 0] ++ [Event.loadDll "psapi.dll" 0]⟩).1 =
      u32 s.self := rfl
  simp only [fresh]
  rw [hg]
  generalize lrlibc_get_process_file_path tableKernel (toInt32 (u32 s.self)) MAX_PATH
    (GetCurrentProcessId tableKernel
      ⟨s, [] ++ [Event.loadDll "kernel32.dll" 0] ++ [Event.loadDll "psapi.dll" 0]⟩).2 = r
    at hq ⊢
  obtain ⟨res, path, w2⟩ := r
  obtain ⟨h1, h2, t, h3⟩ := hq
  simp only [GetCurrentProcessId, tableKernel] at h1 h2 h3
  simp only at h1 h2 h3 ⊢
  subst h1 h2
  unfold tableRun
  by_cases hres : (tableQuery s.procs (u32 s.self)).1 ≤ 0
  · simp only [hres, if_true, lr_error_message, h3]
    exact ⟨trivial, t, rfl⟩
  · simp only [hres, if_false, table_enum, Sys.enumProcesses, h3]
    cases he : s.enumerable with
    | false =>
      have h00 : toInt32 0 = 0 := by decide
      simp only [Bool.false_eq_true, if_false, if_true, lr_error_message, h00]
      exact ⟨trivial, t, rfl⟩
    | true =>
      have h10 : ¬ toInt32 1 = 0 := by decide
      simp only [if_true, h10, if_false, Bool.true_eq_false]
      rw [table_snapshot]
      obtain ⟨k1, t2, k2⟩ := table_loop (u32 s.self) (tableQuery s.procs (u32 s.self)).2
        (tableSnapshot s.procs) (by
          intro p hp
          simp only [tableSnapshot, List.mem_map] at hp
          obtain ⟨_, _, rfl⟩ := hp
          exact u32_lt _)
        ⟨{ self := s.self, procs := s.procs, handles := s.handles, ticket := t,
            enumerable := true },
          w2.trace ++ [Event.enumProcesses (MAX_PROCESS_ID_COUNT * ELEMENT_SIZE) (toInt32 1)
          (u32 (4 * (List.take (MAX_PROCESS_ID_COUNT * ELEMENT_SIZE / 4)
            (List.map Proc.pid s.procs)).length))]⟩ 0
      simp only at k1 k2
      refine ⟨by rw [k1], t2, ?_⟩
      rw [k2]

/-! ## Two runs on the explicit table -/

theorem findProc_removeProc (T : List Proc) (x p : Nat) (h : p ≠ x) :
    findProc (removeProc T x) p = findProc T p := by
  induction T with
  | nil => rfl
  | cons q qs ih =>
    unfold removeProc
    by_cases hq : q.pid = x
    · have hne : (q.pid == p) = false := by
        simp only [beq_eq_false_iff_ne, ne_eq]
        omega
      simp only [hq, if_true]
      unfold findProc
      rw [List.find?_cons_of_neg _ (by simp [hne])]
    · simp only [hq, if_false]
      unfold findProc at ih ⊢
      simp only [List.find?_cons]
      split
      · rfl
      · exact ih

theorem tableQuery_congr (T T' : List Proc) (p : Nat) (h : findProc T' p = findProc T p) :
    tableQuery T' p = tableQuery T p := by
  unfold tableQuery
  rw [h]

theorem reaped_congr (T T' : List Proc) (sp : List Nat) (p : Nat)
    (h : findProc T' p = findProc T p) : reaped T' sp p = reaped T sp p := by
  unfold reaped
  rw [tableQuery_congr T T' p h, h]

theorem reaped_of_absent (T : List Proc) (sp : List Nat) (p : Nat)
    (h : findProc T p = none) : reaped T sp p = false := by
  simp [reaped, h]

theorem reap_find (c : Nat) (sp : List Nat) (T : List Proc) (k : Int) (x p : Nat)
    (h : p = c ∨ reaped T sp p = false) :
    findProc (reap c sp (T, k) x).1 p = findProc T p := by
  unfold reap
  split
  · next hx =>
    apply findProc_removeProc
    rintro rfl
    rcases h with h | h
    · exact hx.1 h
    · simp [h] at hx
  · rfl

theorem fold_find_self (c : Nat) (sp : List Nat) (L : List Nat) (T : List Proc) (k : Int) :
    findProc (L.foldl (reap c sp) (T, k)).1 c = findProc T c := by
  induction L generalizing T k with
  | nil => rfl
  | cons x xs ih =>
    simp only [List.foldl_cons]
    have := reap_find c sp T k x c (Or.inl rfl)
    generalize reap c sp (T, k) x = a at this ⊢
    obtain ⟨T', k'⟩ := a
    rw [ih, this]

theorem fold_inert (c : Nat) (sp : List Nat) (L : List Nat) (T : List Proc) (k : Int)
    (h : ∀ p ∈ L, p = c ∨ reaped T sp p = false) :
    L.foldl (reap c sp) (T, k) = (T, k) := by
  induction L with
  | nil => rfl
  | cons x xs ih =>
    simp only [List.foldl_cons]
    have hx : reap c sp (T, k) x = (T, k) := by
      unfold reap
      rcases h x (List.mem_cons_self _ _) with h1 | h1
      · simp [h1]
      · simp [h1]
    rw [hx]
    exact ih (fun p hp => h p (List.mem_cons_of_mem _ hp))

theorem rows_removeProc_ne (T : List Proc) (x p : Nat) (h : p ≠ x) :
    (removeProc T x).countP (fun q => q.pid == p) = T.countP (fun q => q.pid == p) := by
  induction T with
  | nil => rfl
  | cons q qs ih =>
    unfold removeProc
    by_cases hq : q.pid = x
    · have hne : (q.pid == p) = false := by
        simp only [beq_eq_false_iff_ne, ne_eq]
        omega
      simp [hq, List.countP_cons, hne]
      intro h'
      omega
    · simp only [hq, if_false, List.countP_cons, ih]

theorem rows_removeProc_self (T : List Proc) (p : Nat) :
    (removeProc T p).countP (fun q => q.pid == p) = T.countP (fun q => q.pid == p) - 1 := by
  induction T with
  | nil => rfl
  | cons q qs ih =>
    unfold removeProc
    by_cases hq : q.pid = p
    · simp [hq, List.countP_cons]
    · have hne : (q.pid == p) = false := by simpa using hq
      simp only [hq, if_false, List.countP_cons, ih, hne]
      simp

theorem absent_of_no_rows (T : List Proc) (p : Nat)
    (h : T.countP (fun q => q.pid == p) = 0) : findProc T p = none := by
  unfold findProc
  rw [List.find?_eq_none]
  rw [List.countP_eq_zero] at h
  exact h

theorem fold_settles (c : Nat) (sp : List Nat) (L : List Nat) (T : List Proc) (k : Int)
    (hinv : ∀ p, p < 4294967296 → p ≠ c →
      reaped T sp p = false ∨ T.countP (fun q => q.pid == p) ≤ L.count p) :
    ∀ p, p < 4294967296 → p ≠ c → reaped (L.foldl (reap c sp) (T, k)).1 sp p = false := by
  induction L generalizing T k with
  | nil =>
    intro p hp hc
    rcases hinv p hp hc with h | h
    · exact h
    · exact reaped_of_absent _ _ _ (absent_of_no_rows _ _ (by simpa using h))
  | cons x xs ih =>
    simp only [List.foldl_cons]
    have step : ∀ p, p < 4294967296 → p ≠ c →
        reaped (reap c sp (T, k) x).1 sp p = false ∨
          (reap c sp (T, k) x).1.countP (fun q => q.pid == p) ≤ xs.count p := by
      intro p hp hc
      by_cases hr : reaped T sp p = false
      · left
        rw [reaped_congr T _ sp p (reap_find c sp T k x p (Or.inr hr))]
        exact hr
      · have hcount : T.countP (fun q => q.pid == p) ≤ (x :: xs).count p := by
          rcases hinv p hp hc with h | h
          · exact absurd h hr
          · exact h
        right
        unfold reap
        by_cases hx : x = p
        · subst hx
          have hr' : reaped T sp x = true := by simpa using hr
          simp only [ne_eq, hc, not_false_eq_true, hr', and_self, if_true]
          rw [rows_removeProc_self]
          simp only [List.count_cons_self] at hcount
          omega
        · have hcount' : (x :: xs).count p = xs.count p := by
            rw [List.count_cons_of_ne (Ne.symm hx)]
          split
          · simp only
            rw [rows_removeProc_ne _ _ _ (Ne.symm hx)]
            omega
          · simp only
            omega
    generalize reap c sp (T, k) x = a at step ⊢
    obtain ⟨T', k'⟩ := a
    exact ih T' k' step

theorem rows_le_snapshot (T : List Proc) (p : Nat) (hp : p < 4294967296) :
    T.countP (fun q => q.pid == p) ≤ ((T.map Proc.pid).map u32).count p := by
  induction T with
  | nil => simp
  | cons q qs ih =>
    simp only [List.countP_cons, List.map_cons, List.count_cons]
    by_cases hq : q.pid = p
    · have h1 : u32 q.pid = p := by rw [hq]; exact u32_of_lt hp
      have h2 : (q.pid == p) = true := by simpa using hq
      have h3 : (u32 q.pid == p) = true := by simpa using h1
      simp only [h2, h3, if_true]
      omega
    · have hne : (q.pid == p) = false := by simpa using hq
      simp only [hne, Bool.false_eq_true, if_false, add_zero]
      omega

theorem tableRun_twice (s : Sys) (t : Nat) (hlen : s.procs.length ≤ 1024) :
    (tableRun { s with procs := (tableRun s).1, ticket := t }).2 = 0 := by
  by_cases hres : (tableQuery s.procs (u32 s.self)).1 ≤ 0
  · have h1 : tableRun s = (s.procs, 0) := by simp [tableRun, hres]
    simp [tableRun, h1, hres]
  · by_cases hen : s.enumerable = false
    · have h1 : tableRun s = (s.procs, 0) := by simp [tableRun, hres, hen]
      simp [tableRun, h1, hres, hen]
    · have h1 : tableRun s = (tableSnapshot s.procs).foldl
          (reap (u32 s.self) (tableQuery s.procs (u32 s.self)).2) (s.procs, 0) := by
        simp [tableRun, hres, hen]
      have hq : tableQuery (tableRun s).1 (u32 s.self) = tableQuery s.procs (u32 s.self) := by
        rw [h1]
        exact tableQuery_congr _ _ _ (fold_find_self _ _ _ _ _)
      have hsnap : tableSnapshot s.procs = (s.procs.map Proc.pid).map u32 := by
        unfold tableSnapshot
        rw [List.take_of_length_le (by simpa using hlen)]
      have hsettled := fold_settles (u32 s.self) (tableQuery s.procs (u32 s.self)).2
        (tableSnapshot s.procs) s.procs 0
        (fun p hp _ => Or.inr (by rw [hsnap]; exact rows_le_snapshot s.procs p hp))
      rw [← h1] at hsettled
      have hinert := fold_inert (u32 s.self) (tableQuery s.procs (u32 s.self)).2
        (tableSnapshot (tableRun s).1) (tableRun s).1 0 (by
          intro p hp
          by_cases hc : p = u32 s.self
          · exact Or.inl hc
          · right
            apply hsettled p _ hc
            simp only [tableSnapshot, List.mem_map] at hp
            obtain ⟨_, _, rfl⟩ := hp
            exact u32_lt _)
      clear h1 hsettled
      generalize tableRun s = R at hq hinert ⊢
      unfold tableRun
      simp only [hq, hres, hen, if_false, hinert]
      split <;> rfl

theorem reaped_of_unqueryable (T : List Proc) (sp : List Nat) (p : Nat)
    (h : ∀ q ∈ T, q.pid = p → q.queryable = false) : reaped T sp p = false := by
  cases hf : findProc T p with
  | none => exact reaped_of_absent _ _ _ hf
  | some q =>
    have hmem : q ∈ T := List.mem_of_find?_eq_some hf
    have hpid : q.pid = p := by
      have := List.find?_some hf
      simpa using this
    have hq := h q hmem hpid
    simp [reaped, tableQuery, hf, hq]

theorem fillers_inert (p : Nat) (hp : p ∈ (fillers.map Proc.pid).map u32) :
    reaped (plainProc 100 mmdrvPath :: (fillers ++ [plainProc 2000 mmdrvPath])) mmdrvPath p =
      false := by
  simp only [fillers, List.map_map, List.mem_map, List.mem_range, Function.comp] at hp
  obtain ⟨i, hi, rfl⟩ := hp
  have hu : u32 (plainProc (102 + i) otherPath).pid = 102 + i := by
    simp only [plainProc]
    exact u32_of_lt (by omega)
  rw [hu]
  apply reaped_of_unqueryable
  intro q hq hpid
  simp only [List.mem_cons, List.mem_append, List.mem_singleton, List.not_mem_nil, or_false,
    fillers, List.mem_map, List.mem_range] at hq
  rcases hq with rfl | ⟨j, _, rfl⟩ | rfl
  · simp [plainProc] at hpid
    omega
  · rfl
  · simp [plainProc] at hpid
    omega

theorem take_two_more {α : Type} (a b : α) (l m : List α) (n : Nat) (h : l.length = n) :
    List.take (n + 2) (a :: b :: (l ++ m)) = a :: b :: l := by
  simp [List.take_succ_cons, List.take_left' h]

theorem crowded_first_run :
    tableRun scenarioCrowded =
      (plainProc 100 mmdrvPath :: (fillers ++ [plainProc 2000 mmdrvPath]), 1) := by
  have hself : u32 scenarioCrowded.self = 100 := by decide
  have hq : tableQuery scenarioCrowded.procs 100 = (12, mmdrvPath) := by decide
  have hen : scenarioCrowded.enumerable = true := rfl
  have hsnap : tableSnapshot scenarioCrowded.procs =
      100 :: 101 :: (fillers.map Proc.pid).map u32 := by
    simp only [tableSnapshot, scenarioCrowded, boot, List.map_cons, List.map_append,
      List.map_nil]
    rw [show (1024 : Nat) = 1022 + 2 from rfl,
      take_two_more _ _ _ _ 1022 (by simp [fillers])]
    rfl
  have r1 : reap 100 mmdrvPath (scenarioCrowded.procs, 0) 100 = (scenarioCrowded.procs, 0) := by
    simp [reap]
  have r2 : reap 100 mmdrvPath (scenarioCrowded.procs, 0) 101 =
      (plainProc 100 mmdrvPath :: (fillers ++ [plainProc 2000 mmdrvPath]), 1) := by
    have hr : reaped scenarioCrowded.procs mmdrvPath 101 = true := by decide
    simp only [reap, hr, ne_eq, and_true]
    rfl
  unfold tableRun
  rw [hself, hq, hsnap, hen, if_neg (by decide), if_neg (by decide), List.foldl_cons,
    List.foldl_cons]
  show List.foldl (reap 100 mmdrvPath)
    (reap 100 mmdrvPath (reap 100 mmdrvPath (scenarioCrowded.procs, 0) 100) 101) _ = _
  rw [r1, r2, fold_inert _ _ _ _ _ (fun p hp => Or.inr (fillers_inert p hp))]

theorem crowded_last_row :
    findProc (plainProc 100 mmdrvPath :: (fillers ++ [plainProc 2000 mmdrvPath])) 2000 =
      some (plainProc 2000 mmdrvPath) := by
  have hnone : List.find? (fun q => q.pid == 2000) fillers = none := by
    rw [List.find?_eq_none]
    intro q hq
    simp only [fillers, List.mem_map, List.mem_range] at hq
    obtain ⟨i, hi, rfl⟩ := hq
    simp only [plainProc, beq_iff_eq]
    omega
  unfold findProc
  rw [List.find?_cons_of_neg _ (by decide), List.find?_append, hnone]
  rfl

theorem crowded_second_run (t : Nat) :
    (tableRun { scenarioCrowded with procs := (tableRun scenarioCrowded).1, ticket := t }).2 =
      1 := by
  rw [crowded_first_run]
  have hq : tableQuery (plainProc 100 mmdrvPath :: (fillers ++ [plainProc 2000 mmdrvPath])) 100 =
      (12, mmdrvPath) := by decide
  have hsnap : tableSnapshot (plainProc 100 mmdrvPath :: (fillers ++ [plainProc 2000 mmdrvPath])) =
      100 :: ((fillers.map Proc.pid).map u32 ++ [2000]) := by
    unfold tableSnapshot
    rw [List.take_of_length_le (by simp [fillers])]
    simp only [List.map_cons, List.map_append, List.map_nil]
    rfl
  have r1 : ∀ T : List Proc, reap 100 mmdrvPath (T, 0) 100 = (T, 0) := by
    intro T
    simp [reap]
  have hr : reaped (plainProc 100 mmdrvPath :: (fillers ++ [plainProc 2000 mmdrvPath]))
      mmdrvPath 2000 = true := by
    unfold reaped tableQuery
    rw [crowded_last_row]
    decide
  have r2 : (reap 100 mmdrvPath
      (plainProc 100 mmdrvPath :: (fillers ++ [plainProc 2000 mmdrvPath]), 0) 2000).2 = 1 := by
    simp only [reap, hr, ne_eq, and_true]
    rfl
  unfold tableRun
  show (if (tableQuery (plainProc 100 mmdrvPath :: (fillers ++ [plainProc 2000 mmdrvPath]))
      100).1 ≤ 0 then _ else if true = false then _ else
      List.foldl (reap 100 (tableQuery (plainProc 100 mmdrvPath ::
        (fillers ++ [plainProc 2000 mmdrvPath])) 100).2) _
        (tableSnapshot (plainProc 100 mmdrvPath :: (fillers ++ [plainProc 2000 mmdrvPath])))).2
      = 1
  rw [hq, hsnap, if_neg (by decide), if_neg (by decide), List.foldl_cons]
  show (List.foldl (reap 100 mmdrvPath) (reap 100 mmdrvPath
    (plainProc 100 mmdrvPath :: (fillers ++ [plainProc 2000 mmdrvPath]), 0) 100) _).2 = 1
  rw [r1, List.foldl_append, fold_inert _ _ _ _ _ (fun p hp => Or.inr (fillers_inert p hp)),
    List.foldl_cons, List.foldl_nil, r2]

/-! ## The validation of `lrlib_set_log_level` -/

namespace Log

theorem testBit_u32 (x i : Nat) (hi : i < 32) : (u32 x).testBit i = x.testBit i := by
  unfold u32
  rw [show (4294967296 : Nat) = 2 ^ 32 from rfl, Nat.testBit_mod_two_pow]
  simp [hi]

theorem bit_of_u32_eq (x y i : Nat) (hi : i < 32) (h : u32 x = u32 y) :
    x.testBit i = y.testBit i := by
  rw [← testBit_u32 x i hi, ← testBit_u32 y i hi, h]

theorem checkFrom_drop (table : List Int) (n : Nat) (m k : Nat) (hk : k + m = table.length) :
    checkFrom table n (List.range' k m) =
      some (decide (n ∈ (table.drop k).map intToU32)) := by
  induction m generalizing k with
  | zero =>
    have : table.drop k = [] := List.drop_eq_nil_of_le (by omega)
    simp [checkFrom, this]
  | succ m ih =>
    have hlt : k < table.length := by omega
    have hd : table.drop k = table[k] :: table.drop (k + 1) := List.drop_eq_getElem_cons hlt
    simp only [List.range'_succ, checkFrom, List.getElem?_eq_getElem hlt, hd, List.map_cons,
      List.mem_cons]
    by_cases heq : n = intToU32 table[k]
    · simp [heq]
    · simp only [heq, if_false, false_or]
      exact ih (k + 1) (by omega)

/-- The loop visits the 17 entries and no other index: `is_valid` is whether the value
is one of the entries. -/
theorem is_valid_eq (C : LogClasses) (n : Nat) :
    is_valid C n = some (decide (n ∈ (valid_log_settings C).map intToU32)) := by
  unfold is_valid
  rw [List.range_eq_range']
  exact checkFrom_drop (valid_log_settings C) n 17 0 rfl

section LogOutcome
variable {σ : Type}

/-- A value that is no entry of the array: the error message, `lr_abort`, and no call
that changes a logging setting. -/
theorem set_log_level_rejected (G : LogEngine σ) (C : LogClasses) (n : Nat) (w : LogWorld σ)
    (h : u32 n ∉ (valid_log_settings C).map intToU32) :
    lrlib_set_log_level G C n w = .aborted ⟨w.os, w.calls ++
      [.errorMessage "Invalid logging setting. You may use one of the following:",
       .abort]⟩ := by
  simp [lrlib_set_log_level, is_valid_eq, h, lr_error_message, lr_abort]

/-- A value that is an entry of the array: the function returns, after resetting the
classes, switching the new ones on and reading the setting back. -/
theorem set_log_level_accepted (G : LogEngine σ) (C : LogClasses) (n : Nat) (w : LogWorld σ)
    (h : u32 n ∈ (valid_log_settings C).map intToU32) :
    ∃ w' cur rest, lrlib_set_log_level G C n w = .returned w' ∧
      w'.calls = w.calls ++
        [.setDebugMessage C.LR_MSG_CLASS_DISABLE_LOG C.LR_SWITCH_ON,
         .setDebugMessage (u32 n) C.LR_SWITCH_ON, .getDebugMessage cur] ++ rest ∧
      (rest = [] ∨
        rest = [.setDebugMessage C.LR_MSG_CLASS_JIT_LOG_ON_ERROR C.LR_SWITCH_OFF]) := by
  simp only [lrlib_set_log_level, is_valid_eq, h, decide_True, lr_set_debug_message,
    lr_get_debug_message]
  split
  · exact ⟨_, u32 (G.lr_get_debug_message (G.lr_set_debug_message (u32 n) C.LR_SWITCH_ON
      (G.lr_set_debug_message C.LR_MSG_CLASS_DISABLE_LOG C.LR_SWITCH_ON w.os))).1, _, rfl,
      by simp, Or.inr rfl⟩
  · exact ⟨_, u32 (G.lr_get_debug_message (G.lr_set_debug_message (u32 n) C.LR_SWITCH_ON
      (G.lr_set_debug_message C.LR_MSG_CLASS_DISABLE_LOG C.LR_SWITCH_ON w.os))).1, [], rfl,
      by simp, Or.inl rfl⟩

end LogOutcome

/-- With distinct bits, extended log with result data and full trace is no entry of the array. -/
theorem result_trace_not_listed (C : LogClasses) (hC : DistinctBits C) :
    u32 (C.LR_MSG_CLASS_EXTENDED_LOG ||| C.LR_MSG_CLASS_RESULT_DATA |||
      C.LR_MSG_CLASS_FULL_TRACE) ∉
      (valid_log_settings C).map intToU32 := by
  obtain ⟨h0, b, e, r, p, f, j, hnd, hlt, hb, he, hr, hp, hf, hj⟩ := hC
  simp only [List.nodup_cons, List.mem_cons, List.not_mem_nil, or_false, not_or,
    List.nodup_nil, and_true, not_false_eq_true] at hnd
  obtain ⟨⟨nbe, nbr, nbp, nbf, nbj⟩, ⟨ner, nep, nef, nej⟩,
    ⟨nrp, nrf, nrj⟩, ⟨npf, npj⟩, nfj⟩ := hnd
  have neb : ¬ e = b := fun h => nbe h.symm
  have nrb : ¬ r = b := fun h => nbr h.symm
  have npb : ¬ p = b := fun h => nbp h.symm
  have nfb : ¬ f = b := fun h => nbf h.symm
  have njb : ¬ j = b := fun h => nbj h.symm
  have nre : ¬ r = e := fun h => ner h.symm
  have npe : ¬ p = e := fun h => nep h.symm
  have nfe : ¬ f = e := fun h => nef h.symm
  have nje : ¬ j = e := fun h => nej h.symm
  have npr : ¬ p = r := fun h => nrp h.symm
  have nfr : ¬ f = r := fun h => nrf h.symm
  have njr : ¬ j = r := fun h => nrj h.symm
  have nfp : ¬ f = p := fun h => npf h.symm
  have njp : ¬ j = p := fun h => npj h.symm
  have njf : ¬ j = f := fun h => nfj h.symm
  simp only [List.mem_cons, List.not_mem_nil, or_false, forall_eq_or_imp, forall_eq] at hlt
  obtain ⟨lb, le, lr, lp, lf, lj⟩ := hlt
  simp only [valid_log_settings, List.map_cons, List.map_nil, intToU32_toInt32, h0, hb, he, hr,
    hp, hf, hj, List.mem_cons, List.not_mem_nil, or_false, not_or]
  clear h0 hb he hr hp hf hj
  refine ⟨?_, ?_, ?_, ?_, ?_, ?_, ?_, ?_, ?_, ?_, ?_, ?_, ?_, ?_, ?_, ?_, ?_⟩
  · intro h
    have hb := bit_of_u32_eq _ _ e le h
    clear h
    simp [Nat.testBit_lor, Nat.testBit_two_pow, Nat.zero_testBit, *] at hb
  · intro h
    have hb := bit_of_u32_eq _ _ b lb h
    clear h
    simp [Nat.testBit_lor, Nat.testBit_two_pow, Nat.zero_testBit, *] at hb
  · intro h
    have hb := bit_of_u32_eq _ _ r lr h
    clear h
    simp [Nat.testBit_lor, Nat.testBit_two_pow, Nat.zero_testBit, *] at hb
  · intro h
    have hb := bit_of_u32_eq _ _ p lp h
    clear h
    simp [Nat.testBit_lor, Nat.testBit_two_pow, Nat.zero_testBit, *] at hb
  · intro h
    have hb := bit_of_u32_eq _ _ f lf h
    clear h
    simp [Nat.testBit_lor, Nat.testBit_two_pow, Nat.zero_testBit, *] at hb
  · intro h
    have hb := bit_of_u32_eq _ _ p lp h
    clear h
    simp [Nat.testBit_lor, Nat.testBit_two_pow, Nat.zero_testBit, *] at hb
  · intro h
    have hb := bit_of_u32_eq _ _ r lr h
    clear h
    simp [Nat.testBit_lor, Nat.testBit_two_pow, Nat.zero_testBit, *] at hb
  · intro h
    have hb := bit_of_u32_eq _ _ p lp h
    clear h
    simp [Nat.testBit_lor, Nat.testBit_two_pow, Nat.zero_testBit, *] at hb
  · intro h
    have hb := bit_of_u32_eq _ _ p lp h
    clear h
    simp [Nat.testBit_lor, Nat.testBit_two_pow, Nat.zero_testBit, *] at hb
  · intro h
    have hb := bit_of_u32_eq _ _ j lj h
    clear h
    simp [Nat.testBit_lor, Nat.testBit_two_pow, Nat.zero_testBit, *] at hb
  · intro h
    have hb := bit_of_u32_eq _ _ j lj h
    clear h
    simp [Nat.testBit_lor, Nat.testBit_two_pow, Nat.zero_testBit, *] at hb
  · intro h
    have hb := bit_of_u32_eq _ _ j lj h
    clear h
    simp [Nat.testBit_lor, Nat.testBit_two_pow, Nat.zero_testBit, *] at hb
  · intro h
    have hb := bit_of_u32_eq _ _ j lj h
    clear h
    simp [Nat.testBit_lor, Nat.testBit_two_pow, Nat.zero_testBit, *] at hb
  · intro h
    have hb := bit_of_u32_eq _ _ j lj h
    clear h
    simp [Nat.testBit_lor, Nat.testBit_two_pow, Nat.zero_testBit, *] at hb
  · intro h
    have hb := bit_of_u32_eq _ _ j lj h
    clear h
    simp [Nat.testBit_lor, Nat.testBit_two_pow, Nat.zero_testBit, *] at hb
  · intro h
    have hb := bit_of_u32_eq _ _ j lj h
    clear h
    simp [Nat.testBit_lor, Nat.testBit_two_pow, Nat.zero_testBit, *] at hb
  · intro h
    have hb := bit_of_u32_eq _ _ j lj h
    clear h
    simp [Nat.testBit_lor, Nat.testBit_two_pow, Nat.zero_testBit, *] at hb

/-- With distinct bits, the same setting with just-in-time logging is no entry either. -/
theorem jit_result_trace_not_listed (C : LogClasses) (hC : DistinctBits C) :
    u32 (C.LR_MSG_CLASS_JIT_LOG_ON_ERROR ||| C.LR_MSG_CLASS_EXTENDED_LOG |||
      C.LR_MSG_CLASS_RESULT_DATA ||| C.LR_MSG_CLASS_FULL_TRACE) ∉
      (valid_log_settings C).map intToU32 := by
  obtain ⟨h0, b, e, r, p, f, j, hnd, hlt, hb, he, hr, hp, hf, hj⟩ := hC
  simp only [List.nodup_cons, List.mem_cons, List.not_mem_nil, or_false, not_or,
    List.nodup_nil, and_true, not_false_eq_true] at hnd
  obtain ⟨⟨nbe, nbr, nbp, nbf, nbj⟩, ⟨ner, nep, nef, nej⟩,
    ⟨nrp, nrf, nrj⟩, ⟨npf, npj⟩, nfj⟩ := hnd
  have neb : ¬ e = b := fun h => nbe h.symm
  have nrb : ¬ r = b := fun h => nbr h.symm
  have npb : ¬ p = b := fun h => nbp h.symm
  have nfb : ¬ f = b := fun h => nbf h.symm
  have njb : ¬ j = b := fun h => nbj h.symm
  have nre : ¬ r = e := fun h => ner h.symm
  have npe : ¬ p = e := fun h => nep h.symm
  have nfe : ¬ f = e := fun h => nef h.symm
  have nje : ¬ j = e := fun h => nej h.symm
  have npr : ¬ p = r := fun h => nrp h.symm
  have nfr : ¬ f = r := fun h => nrf h.symm
  have njr : ¬ j = r := fun h => nrj h.symm
  have nfp : ¬ f = p := fun h => npf h.symm
  have njp : ¬ j = p := fun h => npj h.symm
  have njf : ¬ j = f := fun h => nfj h.symm
  simp only [List.mem_cons, List.not_mem_nil, or_false, forall_eq_or_imp, forall_eq] at hlt
  obtain ⟨lb, le, lr, lp, lf, lj⟩ := hlt
  simp only [valid_log_settings, List.map_cons, List.map_nil, intToU32_toInt32, h0, hb, he, hr,
    hp, hf, hj, List.mem_cons, List.not_mem_nil, or_false, not_or]
  clear h0 hb he hr hp hf hj
  refine ⟨?_, ?_, ?_, ?_, ?_, ?_, ?_, ?_, ?_, ?_, ?_, ?_, ?_, ?_, ?_, ?_, ?_⟩
  · intro h
    have hb := bit_of_u32_eq _ _ e le h
    clear h
    simp [Nat.testBit_lor, Nat.testBit_two_pow, Nat.zero_testBit, *] at hb
  · intro h
    have hb := bit_of_u32_eq _ _ b lb h
    clear h
    simp [Nat.testBit_lor, Nat.testBit_two_pow, Nat.zero_testBit, *] at hb
  · intro h
    have hb := bit_of_u32_eq _ _ j lj h
    clear h
    simp [Nat.testBit_lor, Nat.testBit_two_pow, Nat.zero_testBit, *] at hb
  · intro h
    have hb := bit_of_u32_eq _ _ j lj h
    clear h
    simp [Nat.testBit_lor, Nat.testBit_two_pow, Nat.zero_testBit, *] at hb
  · intro h
    have hb := bit_of_u32_eq _ _ j lj h
    clear h
    simp [Nat.testBit_lor, Nat.testBit_two_pow, Nat.zero_testBit, *] at hb
  · intro h
    have hb := bit_of_u32_eq _ _ j lj h
    clear h
    simp [Nat.testBit_lor, Nat.testBit_two_pow, Nat.zero_testBit, *] at hb
  · intro h
    have hb := bit_of_u32_eq _ _ j lj h
    clear h
    simp [Nat.testBit_lor, Nat.testBit_two_pow, Nat.zero_testBit, *] at hb
  · intro h
    have hb := bit_of_u32_eq _ _ j lj h
    clear h
    simp [Nat.testBit_lor, Nat.testBit_two_pow, Nat.zero_testBit, *] at hb
  · intro h
    have hb := bit_of_u32_eq _ _ j lj h
    clear h
    simp [Nat.testBit_lor, Nat.testBit_two_pow, Nat.zero_testBit, *] at hb
  · intro h
    have hb := bit_of_u32_eq _ _ b lb h
    clear h
    simp [Nat.testBit_lor, Nat.testBit_two_pow, Nat.zero_testBit, *] at hb
  · intro h
    have hb := bit_of_u32_eq _ _ r lr h
    clear h
    simp [Nat.testBit_lor, Nat.testBit_two_pow, Nat.zero_testBit, *] at hb
  · intro h
    have hb := bit_of_u32_eq _ _ p lp h
    clear h
    simp [Nat.testBit_lor, Nat.testBit_two_pow, Nat.zero_testBit, *] at hb
  · intro h
    have hb := bit_of_u32_eq _ _ f lf h
    clear h
    simp [Nat.testBit_lor, Nat.testBit_two_pow, Nat.zero_testBit, *] at hb
  · intro h
    have hb := bit_of_u32_eq _ _ p lp h
    clear h
    simp [Nat.testBit_lor, Nat.testBit_two_pow, Nat.zero_testBit, *] at hb
  · intro h
    have hb := bit_of_u32_eq _ _ r lr h
    clear h
    simp [Nat.testBit_lor, Nat.testBit_two_pow, Nat.zero_testBit, *] at hb
  · intro h
    have hb := bit_of_u32_eq _ _ p lp h
    clear h
    simp [Nat.testBit_lor, Nat.testBit_two_pow, Nat.zero_testBit, *] at hb
  · intro h
    have hb := bit_of_u32_eq _ _ p lp h
    clear h
    simp [Nat.testBit_lor, Nat.testBit_two_pow, Nat.zero_testBit, *] at hb

end Log

/-! ## The claims -/

section Claims
variable {σ : Type}

/-- C1. Whenever the self query and the enumeration succeed, every `TerminateProcess` the
run makes is on the handle just opened for a process id `p` that is an entry of the
snapshot, differs from the caller's id, had its image path resolved (positive length)
and had that path equal to the caller's under `stricmp`; so an entry whose path differs
is never terminated. -/
theorem kill_only_matching (K : Kernel σ) (s : σ) (self : Nat) (selfPath snap : List Nat)
    (w1 : World σ) (hp : prologue K (fresh s) = .scanning self selfPath snap w1)
    (pre post : List Event) (h x : Nat) (r : Int)
    (ht : (lrlibc_kill_all_mmdrv K (fresh s)).2.trace =
      pre ++ Event.terminateProcess h x r :: post) :
    ∃ front p hq n buf, p ∈ snap ∧ p ≠ self ∧ hq ≠ 0 ∧ 0 < n ∧ stricmp buf selfPath = 0 ∧
      h ≠ 0 ∧ x = 0 ∧
      pre = front ++ queryEvents p hq n buf ++
        [.openProcess KILL_ACCESS FALSE p h,
         .outputMessage "Killing process %d" [toInt32 p]] := by
  exact kill_justified K s self selfPath snap w1 hp pre post h x r ht

/-- Scenario A: snapshot `[100, 200, 300]`, 200 runs the caller's image, 300 another
one.  The run returns 1, terminates once (the handle opened for 200), never opens 300
for termination, and the terminate call is justified as C1 says. -/
theorem kill_only_matching_witness :
    (lrlibc_kill_all_mmdrv tableKernel (fresh scenarioA)).1 = some 1 ∧
    (lrlibc_kill_all_mmdrv tableKernel (fresh scenarioA)).2.trace =
      [.loadDll "kernel32.dll" 0, .loadDll "psapi.dll" 0, .getCurrentProcessId 100,
       .openProcess 1040 0 100 4, .getModuleFileNameExA 4 260 12 mmdrvPath, .closeHandle 4,
       .enumProcesses 4096 1 12,
       .openProcess 1040 0 200 8, .getModuleFileNameExA 8 260 12 mmdrvPathUpper,
       .closeHandle 8, .openProcess 1041 0 200 12,
       .outputMessage "Killing process %d" [200], .terminateProcess 12 0 1, .closeHandle 12,
       .openProcess 1040 0 300 16, .getModuleFileNameExA 16 260 12 otherPath,
       .closeHandle 16] ∧
    ∃ front p hq n buf, p ∈ [100, 200, 300] ∧ p ≠ 100 ∧ hq ≠ 0 ∧ 0 < n ∧
      stricmp buf mmdrvPath = 0 ∧ 12 ≠ 0 ∧ 0 = 0 ∧
      [.loadDll "kernel32.dll" 0, .loadDll "psapi.dll" 0, .getCurrentProcessId 100,
       .openProcess 1040 0 100 4, .getModuleFileNameExA 4 260 12 mmdrvPath, .closeHandle 4,
       .enumProcesses 4096 1 12,
       .openProcess 1040 0 200 8, .getModuleFileNameExA 8 260 12 mmdrvPathUpper,
       .closeHandle 8, .openProcess 1041 0 200 12,
       .outputMessage "Killing process %d" [200]] =
        front ++ queryEvents p hq n buf ++
          [.openProcess KILL_ACCESS FALSE p 12,
           .outputMessage "Killing process %d" [toInt32 p]] :=
  ⟨by decide, by decide,
    kill_only_matching tableKernel scenarioA 100 mmdrvPath [100, 200, 300] _ rfl _
      [.closeHandle 12, .openProcess 1040 0 300 16,
       .getModuleFileNameExA 16 260 12 otherPath, .closeHandle 16] 12 0 1 (by decide)⟩

/-- C2. In every run, whatever the kernel answers: if `c` is the id `GetCurrentProcessId`
reported, no `OpenProcess` that asks for `PROCESS_TERMINATE` is made on `c`, and every
`TerminateProcess` is on the handle returned by the `OpenProcess` made just before on a
process id other than `c`. -/
theorem never_targets_self (K : Kernel σ) (s : σ) (c : Nat)
    (hc : Event.getCurrentProcessId c ∈ (lrlibc_kill_all_mmdrv K (fresh s)).2.trace) :
    (∀ access inherit p h,
      Event.openProcess access inherit p h ∈ (lrlibc_kill_all_mmdrv K (fresh s)).2.trace →
      access &&& PROCESS_TERMINATE ≠ 0 → p ≠ c) ∧
    (∀ pre post h x r,
      (lrlibc_kill_all_mmdrv K (fresh s)).2.trace =
        pre ++ Event.terminateProcess h x r :: post →
      ∃ front p, p ≠ c ∧ pre = front ++
        [.openProcess KILL_ACCESS FALSE p h,
         .outputMessage "Killing process %d" [toInt32 p]]) := by
  rcases run_cases K s with ⟨hquiet, -⟩ | ⟨self, selfPath, snap, w1, hp⟩
  · constructor
    · intro access inherit p h he hacc
      have := (hquiet _ he).1
      simp [isKillOpen, hacc] at this
    · intro pre post h x r heq
      have := (hquiet (Event.terminateProcess h x r) (by rw [heq]; simp)).2
      simp [isTerminate] at this
  · obtain ⟨hq, n, r', b, tr, total, -, -, -, -, hl, htr, -⟩ :=
      run_shape K s w1 self selfPath snap hp
    have hclean := loop_clean _ _ _ _ _ hl
    have hself : c = self := by
      rw [htr] at hc
      rcases List.mem_append.1 hc with h1 | h1
      · simpa [prologueEvents, queryEvents] using h1
      · have := (hclean _ h1).2
        simp [isGetPid] at this
    subst hself
    constructor
    · intro access inherit p h he hacc hpc
      rw [htr] at he
      rcases List.mem_append.1 he with h1 | h1
      · simp only [prologueEvents, queryEvents, List.mem_append, List.mem_cons,
          List.mem_singleton, List.not_mem_nil, or_false] at h1
        simp only [reduceCtorEq, Event.openProcess.injEq, false_or, or_false] at h1
        obtain ⟨rfl, -⟩ := h1
        exact hacc (by decide)
      · have := (hclean _ h1).1
        simp [targets, hacc, hpc] at this
    · intro pre post h x r heq
      obtain ⟨front, p, hq', n', buf, -, h2, -, -, -, -, -, h8⟩ :=
        kill_justified K s c selfPath snap w1 hp pre post h x r heq
      exact ⟨front ++ queryEvents p hq' n' buf, p, h2, h8⟩

/-- A snapshot `[100, 200, 100]` that lists the caller 100 twice: the only open for
termination is on 200, and the terminate call follows it. -/
theorem never_targets_self_witness :
    Event.getCurrentProcessId 100 ∈
      (lrlibc_kill_all_mmdrv tableKernel (fresh scenarioTwice)).2.trace ∧
    Event.openProcess 1041 0 200 12 ∈
      (lrlibc_kill_all_mmdrv tableKernel (fresh scenarioTwice)).2.trace ∧
    200 ≠ 100 ∧
    ∃ front p, p ≠ 100 ∧
      (lrlibc_kill_all_mmdrv tableKernel (fresh scenarioTwice)).2.trace.take 12 = front ++
        [.openProcess KILL_ACCESS FALSE p 12,
         .outputMessage "Killing process %d" [toInt32 p]] :=
  ⟨by decide, by decide,
    (never_targets_self tableKernel scenarioTwice 100 (by decide)).1 1041 0 200 12
      (by decide) (by decide),
    (never_targets_self tableKernel scenarioTwice 100 (by decide)).2
      ((lrlibc_kill_all_mmdrv tableKernel (fresh scenarioTwice)).2.trace.take 12)
      ((lrlibc_kill_all_mmdrv tableKernel (fresh scenarioTwice)).2.trace.drop 13)
      12 0 1 (by decide)⟩

/-- C3. The integer a run returns is the number of `TerminateProcess` calls of that run
that reported success, so it is never negative; and when the scan is reached it is at
most the number of snapshot entries other than the caller's id (hence below `2^31`, so
`killCount++` never overflows). -/
theorem count_is_kills (K : Kernel σ) (s : σ) :
    (∀ n, (lrlibc_kill_all_mmdrv K (fresh s)).1 = some n →
      n = (killsIn (lrlibc_kill_all_mmdrv K (fresh s)).2.trace : Int) ∧ 0 ≤ n) ∧
    (∀ self selfPath snap w1, prologue K (fresh s) = .scanning self selfPath snap w1 →
      ∃ n, (lrlibc_kill_all_mmdrv K (fresh s)).1 = some n ∧
        n ≤ ((snap.filter (fun p => p ≠ self)).length : Int) ∧ n < 2147483648) := by
  constructor
  · intro n hn
    rcases run_cases K s with ⟨hquiet, hv⟩ | ⟨self, selfPath, snap, w1, hp⟩
    · rw [killsIn_of_quiet _ (fun e he => (hquiet e he).2)]
      rcases hv with hv | hv
      · rw [hv] at hn; cases hn
      · rw [hv] at hn; cases hn; simp
    · obtain ⟨hq, m, r', b, tr, total, -, -, -, -, hl, htr, hres⟩ :=
        run_shape K s w1 self selfPath snap hp
      obtain ⟨h1, h2, -⟩ := loop_kills _ _ _ _ _ hl
      rw [hres] at hn
      cases hn
      refine ⟨?_, h2⟩
      rw [htr, h1]
      have : killsIn (prologueEvents self hq m selfPath r' b) = 0 :=
        killsIn_of_quiet _ (by simp [prologueEvents, queryEvents, isTerminate])
      simp only [killsIn, List.countP_append] at this ⊢
      omega
  · intro self selfPath snap w1 hp
    obtain ⟨hq, m, r', b, tr, total, -, -, -, -, hl, -, hres⟩ :=
      run_shape K s w1 self selfPath snap hp
    obtain ⟨-, -, h3⟩ := loop_kills _ _ _ _ _ hl
    obtain ⟨-, -, -, -, -, -, -, -, -, -, hlen⟩ := prologue_scanning K _ _ _ _ _ hp
    have := List.length_filter_le (fun p => decide (p ≠ self)) snap
    exact ⟨total, hres, h3, by omega⟩

/-- On the mixed table the run returns 1: one successful terminate (200); the mismatch
(300), the failed open (400), the failed terminate (500) and the two unresolvable paths
(600, 700) add nothing. -/
theorem count_is_kills_witness :
    (lrlibc_kill_all_mmdrv tableKernel (fresh scenarioMixed)).1 = some 1 ∧
    attemptsIn (lrlibc_kill_all_mmdrv tableKernel (fresh scenarioMixed)).2.trace = 2 ∧
    ((1 : Int) = (killsIn (lrlibc_kill_all_mmdrv tableKernel (fresh scenarioMixed)).2.trace
      : Int) ∧ (0 : Int) ≤ 1) ∧
    ∃ n, (lrlibc_kill_all_mmdrv tableKernel (fresh scenarioMixed)).1 = some n ∧
      n ≤ (([100, 200, 300, 400, 500, 600, 700].filter (fun p => p ≠ 100)).length : Int) ∧
      n < 2147483648 :=
  ⟨by decide, by decide,
    (count_is_kills tableKernel scenarioMixed).1 1 (by decide),
    (count_is_kills tableKernel scenarioMixed).2 100 mmdrvPath
      [100, 200, 300, 400, 500, 600, 700] _ rfl⟩

/-- C4, as the code has it. Take any entry `p` of the snapshot, at any position, other
than the caller's id, whose path query in its own iteration returns a positive length and
a string equal to the caller's under `stricmp`. That iteration opens `p` with
`KILL_ACCESS`; if the open returns a handle it logs, calls `TerminateProcess` once on that
handle and closes it, and if the open returns `NULL` it calls `TerminateProcess` not at
all. An id listed several times gets one such iteration per listing. -/
theorem attempt_once_per_entry (K : Kernel σ) (s : σ) (self : Nat)
    (selfPath snap : List Nat) (w1 : World σ)
    (hp : prologue K (fresh s) = .scanning self selfPath snap w1)
    (pre post : List Nat) (p : Nat) (hs : snap = pre ++ p :: post) (hne : p ≠ self)
    (hres : 0 < (queryAt K p (atEntry K self selfPath pre w1).1).1)
    (hmatch : stricmp (queryAt K p (atEntry K self selfPath pre w1).1).2.1 selfPath = 0) :
    (lrlibc_kill_all_mmdrv K (fresh s)).2 =
      (scanLoop K self selfPath post
        (scanBody K self selfPath (atEntry K self selfPath pre w1) p)).1 ∧
    (∃ r, (scanBody K self selfPath (atEntry K self selfPath pre w1) p).1.trace =
      (killOpenAt K p (atEntry K self selfPath pre w1).1).2.trace ++
        (if (killOpenAt K p (atEntry K self selfPath pre w1).1).1 = 0 then []
         else [.outputMessage "Killing process %d" [toInt32 p],
               .terminateProcess (killOpenAt K p (atEntry K self selfPath pre w1).1).1 0 r,
               .closeHandle (killOpenAt K p (atEntry K self selfPath pre w1).1).1])) ∧
    attemptsIn (scanBody K self selfPath (atEntry K self selfPath pre w1) p).1.trace =
      attemptsIn (atEntry K self selfPath pre w1).1.trace +
        (if (killOpenAt K p (atEntry K self selfPath pre w1).1).1 = 0 then 0 else 1) := by
  refine ⟨run_split K s self selfPath snap w1 hp pre post p hs, ?_⟩
  have hq := attemptsIn_query K p (atEntry K self selfPath pre w1).1
  generalize atEntry K self selfPath pre w1 = a at hres hmatch hq ⊢
  obtain ⟨w, k⟩ := a
  simp only [queryAt] at hres hmatch hq
  have hres' : ¬ (lrlibc_get_process_file_path K (toInt32 p) MAX_PATH w).1 ≤ 0 := by omega
  simp only [scanBody, hne, hres', hmatch, if_false, killOpenAt, queryAt, ne_eq,
    not_true_eq_false]
  by_cases ho : (OpenProcess K KILL_ACCESS FALSE p
      (lrlibc_get_process_file_path K (toInt32 p) MAX_PATH w).2.2).1 = 0
  · simp only [ho, if_true, List.append_nil, add_zero, exists_const, true_and]
    simp only [OpenProcess, attemptsIn, List.countP_append] at hq ⊢
    simp [hq, isTerminate]
  · simp only [ho, if_false]
    constructor
    · refine ⟨(TerminateProcess K (OpenProcess K KILL_ACCESS FALSE p
        (lrlibc_get_process_file_path K (toInt32 p) MAX_PATH w).2.2).1 0
        (lr_output_message "Killing process %d" [toInt32 p] (OpenProcess K KILL_ACCESS FALSE p
          (lrlibc_get_process_file_path K (toInt32 p) MAX_PATH w).2.2).2)).1, ?_⟩
      simp [CloseHandle, TerminateProcess, lr_output_message]
    · simp only [CloseHandle, TerminateProcess, lr_output_message, OpenProcess, attemptsIn,
        List.countP_append] at hq ⊢
      simp [hq, isTerminate]

/-- The claim as first stated fails both ways. With a duplicate 200 that may not be
opened for termination, 200 is a non-caller entry whose path resolves and matches, and
no termination is attempted on it. With a table that lists 200 twice and on which
`TerminateProcess` fails, termination is attempted on 200 twice. -/
theorem attempt_once_counterexample :
    (∃ w1, prologue tableKernel (fresh scenarioLocked) =
        .scanning 100 mmdrvPath [100, 200] w1 ∧
      200 ∈ [100, 200] ∧ 200 ≠ 100 ∧ 0 < (queryAt tableKernel 200 w1).1 ∧
      stricmp (queryAt tableKernel 200 w1).2.1 mmdrvPath = 0 ∧
      attemptsOn 200 []
        (lrlibc_kill_all_mmdrv tableKernel (fresh scenarioLocked)).2.trace = 0) ∧
    (∃ w1, prologue tableKernel (fresh scenarioStubborn) =
        .scanning 100 mmdrvPath [100, 200, 200] w1 ∧
      200 ∈ [100, 200, 200] ∧ 200 ≠ 100 ∧ 0 < (queryAt tableKernel 200 w1).1 ∧
      stricmp (queryAt tableKernel 200 w1).2.1 mmdrvPath = 0 ∧
      attemptsOn 200 []
        (lrlibc_kill_all_mmdrv tableKernel (fresh scenarioStubborn)).2.trace = 2) :=
  ⟨⟨_, rfl, by decide, by decide, by decide, by decide, by decide⟩,
   ⟨_, rfl, by decide, by decide, by decide, by decide, by decide⟩⟩

/-- On the mixed table the entry 200 (after `[100]`) resolves, matches and opens: its
iteration makes one terminate call. The entry 400 (after `[100, 200, 300]`) resolves and
matches but does not open: its iteration makes none. -/
theorem attempt_once_per_entry_witness :
    ∃ w1, prologue tableKernel (fresh scenarioMixed) =
        .scanning 100 mmdrvPath [100, 200, 300, 400, 500, 600, 700] w1 ∧
      (killOpenAt tableKernel 200 (atEntry tableKernel 100 mmdrvPath [100] w1).1).1 = 12 ∧
      attemptsIn (scanBody tableKernel 100 mmdrvPath
          (atEntry tableKernel 100 mmdrvPath [100] w1) 200).1.trace =
        attemptsIn (atEntry tableKernel 100 mmdrvPath [100] w1).1.trace +
          (if (killOpenAt tableKernel 200
            (atEntry tableKernel 100 mmdrvPath [100] w1).1).1 = 0 then 0 else 1) ∧
      (killOpenAt tableKernel 400
        (atEntry tableKernel 100 mmdrvPath [100, 200, 300] w1).1).1 = 0 ∧
      attemptsIn (scanBody tableKernel 100 mmdrvPath
          (atEntry tableKernel 100 mmdrvPath [100, 200, 300] w1) 400).1.trace =
        attemptsIn (atEntry tableKernel 100 mmdrvPath [100, 200, 300] w1).1.trace +
          (if (killOpenAt tableKernel 400
            (atEntry tableKernel 100 mmdrvPath [100, 200, 300] w1).1).1 = 0 then 0 else 1) :=
  ⟨_, rfl, by decide,
    (attempt_once_per_entry tableKernel scenarioMixed 100 mmdrvPath
      [100, 200, 300, 400, 500, 600, 700] _ rfl [100] [300, 400, 500, 600, 700] 200 rfl
      (by decide) (by decide) (by decide)).2.2,
    by decide,
    (attempt_once_per_entry tableKernel scenarioMixed 100 mmdrvPath
      [100, 200, 300, 400, 500, 600, 700] _ rfl [100, 200, 300] [500, 600, 700] 400 rfl
      (by decide) (by decide) (by decide)).2.2⟩

/-- C5. Take any entry `p` of the snapshot, at any position, whose path query in its own
iteration returns `<= 0` (the open for query failed, or `GetModuleFileNameExA` did). That
iteration ends right after the query: it makes no `OpenProcess` asking for
`PROCESS_TERMINATE`, no `TerminateProcess`, and leaves `killCount` as it was. -/
theorem unresolved_is_skipped (K : Kernel σ) (s : σ) (self : Nat)
    (selfPath snap : List Nat) (w1 : World σ)
    (hp : prologue K (fresh s) = .scanning self selfPath snap w1)
    (pre post : List Nat) (p : Nat) (hs : snap = pre ++ p :: post)
    (hfail : (queryAt K p (atEntry K self selfPath pre w1).1).1 ≤ 0) :
    (lrlibc_kill_all_mmdrv K (fresh s)).2 =
      (scanLoop K self selfPath post
        (scanBody K self selfPath (atEntry K self selfPath pre w1) p)).1 ∧
    (p ≠ self → scanBody K self selfPath (atEntry K self selfPath pre w1) p =
      ((queryAt K p (atEntry K self selfPath pre w1).1).2.2,
        (atEntry K self selfPath pre w1).2)) ∧
    ∃ seg, (scanBody K self selfPath (atEntry K self selfPath pre w1) p).1.trace =
        (atEntry K self selfPath pre w1).1.trace ++ seg ∧
      (∀ e ∈ seg, isKillOpen e = false ∧ isTerminate e = false) ∧
      (scanBody K self selfPath (atEntry K self selfPath pre w1) p).2 =
        (atEntry K self selfPath pre w1).2 := by
  refine ⟨run_split K s self selfPath snap w1 hp pre post p hs, ?_⟩
  generalize atEntry K self selfPath pre w1 = a at hfail ⊢
  obtain ⟨w, k⟩ := a
  simp only [queryAt] at hfail ⊢
  have hbody : p ≠ self → scanBody K self selfPath (w, k) p =
      ((lrlibc_get_process_file_path K (toInt32 p) MAX_PATH w).2.2, k) := by
    intro hne
    simp [scanBody, hne, hfail]
  refine ⟨hbody, ?_⟩
  by_cases hne : p = self
  · exact ⟨[], by simp [scanBody, hne], by simp, by simp [scanBody, hne]⟩
  · obtain ⟨seg, hq, ht⟩ := query_shape K (toInt32 p) w
    rw [hbody hne]
    exact ⟨seg, ht, fun e he => ⟨(queryShape_clean 0 _ _ _ _ hq e he).2.2,
      queryShape_quiet _ _ _ _ hq e he⟩, rfl⟩

/-- On the mixed table the entries 600 (cannot be opened) and 700 (name unreadable) have
an unresolvable path: their iterations end after the query. -/
theorem unresolved_is_skipped_witness :
    ∃ w1, prologue tableKernel (fresh scenarioMixed) =
        .scanning 100 mmdrvPath [100, 200, 300, 400, 500, 600, 700] w1 ∧
      (queryAt tableKernel 600
        (atEntry tableKernel 100 mmdrvPath [100, 200, 300, 400, 500] w1).1).1 = 0 ∧
      (∃ seg, (scanBody tableKernel 100 mmdrvPath
          (atEntry tableKernel 100 mmdrvPath [100, 200, 300, 400, 500] w1) 600).1.trace =
          (atEntry tableKernel 100 mmdrvPath [100, 200, 300, 400, 500] w1).1.trace ++ seg ∧
        (∀ e ∈ seg, isKillOpen e = false ∧ isTerminate e = false) ∧
        (scanBody tableKernel 100 mmdrvPath
          (atEntry tableKernel 100 mmdrvPath [100, 200, 300, 400, 500] w1) 600).2 =
          (atEntry tableKernel 100 mmdrvPath [100, 200, 300, 400, 500] w1).2) ∧
      (queryAt tableKernel 700
        (atEntry tableKernel 100 mmdrvPath [100, 200, 300, 400, 500, 600] w1).1).1 = 0 ∧
      (∃ seg, (scanBody tableKernel 100 mmdrvPath
          (atEntry tableKernel 100 mmdrvPath [100, 200, 300, 400, 500, 600] w1) 700).1.trace =
          (atEntry tableKernel 100 mmdrvPath [100, 200, 300, 400, 500, 600] w1).1.trace ++
            seg ∧
        (∀ e ∈ seg, isKillOpen e = false ∧ isTerminate e = false) ∧
        (scanBody tableKernel 100 mmdrvPath
          (atEntry tableKernel 100 mmdrvPath [100, 200, 300, 400, 500, 600] w1) 700).2 =
          (atEntry tableKernel 100 mmdrvPath [100, 200, 300, 400, 500, 600] w1).2) :=
  ⟨_, rfl, by decide,
    (unresolved_is_skipped tableKernel scenarioMixed 100 mmdrvPath
      [100, 200, 300, 400, 500, 600, 700] _ rfl [100, 200, 300, 400, 500] [700] 600 rfl
      (by decide)).2.2,
    by decide,
    (unresolved_is_skipped tableKernel scenarioMixed 100 mmdrvPath
      [100, 200, 300, 400, 500, 600, 700] _ rfl [100, 200, 300, 400, 500, 600] [] 700 rfl
      (by decide)).2.2⟩

/-- C6. When both DLLs load and the path query on the caller's own id returns `<= 0`, the
run returns 0, logs one error message, and calls neither `EnumProcesses`, nor
`OpenProcess` with `PROCESS_TERMINATE`, nor `TerminateProcess`. -/
theorem self_query_failure (K : Kernel σ) (s : σ) (wa wb : World σ)
    (h1 : lrlibc_load_dll K "kernel32.dll" (fresh s) = (true, wa))
    (h2 : lrlibc_load_dll K "psapi.dll" wa = (true, wb))
    (h3 : (lrlibc_get_process_file_path K (toInt32 (GetCurrentProcessId K wb).1) MAX_PATH
      (GetCurrentProcessId K wb).2).1 ≤ 0) :
    (lrlibc_kill_all_mmdrv K (fresh s)).1 = some 0 ∧
    (lrlibc_kill_all_mmdrv K (fresh s)).2.trace.countP isError = 1 ∧
    Event.errorMessage "Error querying the current process." ∈
      (lrlibc_kill_all_mmdrv K (fresh s)).2.trace ∧
    ∀ e ∈ (lrlibc_kill_all_mmdrv K (fresh s)).2.trace,
      isEnum e = false ∧ isKillOpen e = false ∧ isTerminate e = false := by
  have hpro : prologue K (fresh s) = .returned 0
      (lr_error_message "Error querying the current process."
        (lrlibc_get_process_file_path K (toInt32 (GetCurrentProcessId K wb).1) MAX_PATH
          (GetCurrentProcessId K wb).2).2.2) := by
    unfold prologue
    rw [h1]
    simp only
    rw [h2]
    simp only [h3, if_true]
  obtain ⟨seg, hq, ht⟩ := query_shape K (toInt32 (GetCurrentProcessId K wb).1)
    (GetCurrentProcessId K wb).2
  have ha := load_ok K _ _ _ h1
  have hb := load_ok K _ _ _ h2
  have hg : (GetCurrentProcessId K wb).2.trace =
      wb.trace ++ [Event.getCurrentProcessId (GetCurrentProcessId K wb).1] := rfl
  have htr : (lrlibc_kill_all_mmdrv K (fresh s)).2.trace =
      [Event.loadDll "kernel32.dll" 0, Event.loadDll "psapi.dll" 0,
        Event.getCurrentProcessId (GetCurrentProcessId K wb).1] ++ seg ++
        [Event.errorMessage "Error querying the current process."] := by
    rw [run_returned K _ _ _ hpro]
    simp only [lr_error_message]
    rw [ht, hg, hb, ha]
    simp [fresh]
  have hseg := queryShape_noise _ _ _ _ hq
  rw [htr]
  refine ⟨by rw [run_returned K _ _ _ hpro], ?_, by simp, ?_⟩
  · have : seg.countP isError = 0 := by
      rw [List.countP_eq_zero]
      intro e he
      simp [(hseg e he).1]
    simp [List.countP_append, this, isError, List.countP_cons]
  · intro e he
    simp only [List.mem_append, List.mem_cons, List.mem_singleton, List.not_mem_nil,
      or_false] at he
    rcases he with ((rfl | rfl | rfl) | he) | rfl
    · simp [isEnum, isKillOpen, isTerminate]
    · simp [isEnum, isKillOpen, isTerminate]
    · simp [isEnum, isKillOpen, isTerminate]
    · exact ⟨(hseg e he).2, (queryShape_clean 0 _ _ _ _ hq e he).2.2,
        queryShape_quiet _ _ _ _ hq e he⟩
    · simp [isEnum, isKillOpen, isTerminate]

/-- Scenario D: the caller may not be opened for query. The run returns 0 with one error
logged and never enumerates. -/
theorem self_query_failure_witness :
    (lrlibc_kill_all_mmdrv tableKernel (fresh scenarioBlind)).1 = some 0 ∧
    (lrlibc_kill_all_mmdrv tableKernel (fresh scenarioBlind)).2.trace.countP isError = 1 ∧
    Event.errorMessage "Error querying the current process." ∈
      (lrlibc_kill_all_mmdrv tableKernel (fresh scenarioBlind)).2.trace ∧
    ∀ e ∈ (lrlibc_kill_all_mmdrv tableKernel (fresh scenarioBlind)).2.trace,
      isEnum e = false ∧ isKillOpen e = false ∧ isTerminate e = false :=
  self_query_failure tableKernel scenarioBlind _ _ rfl rfl (by decide)

/-- C7, as the code has it. When both DLLs load, the path query on the caller's own id
succeeds and `EnumProcesses` fails, the run returns 0, logs one error message and makes
no `TerminateProcess` call; its calls are exactly the two loads, `GetCurrentProcessId`,
the path query on the caller, the failed enumeration and the error message. So the
invocation makes one image-path query, on the caller and before the enumeration, and
none on an enumerated process. -/
theorem enumeration_failure (K : Kernel σ) (s : σ) (wa wb : World σ)
    (h1 : lrlibc_load_dll K "kernel32.dll" (fresh s) = (true, wa))
    (h2 : lrlibc_load_dll K "psapi.dll" wa = (true, wb))
    (h3 : 0 < (lrlibc_get_process_file_path K (toInt32 (GetCurrentProcessId K wb).1)
      MAX_PATH (GetCurrentProcessId K wb).2).1)
    (h4 : (EnumProcesses K (MAX_PROCESS_ID_COUNT * ELEMENT_SIZE)
      (lrlibc_get_process_file_path K (toInt32 (GetCurrentProcessId K wb).1) MAX_PATH
        (GetCurrentProcessId K wb).2).2.2).1 = 0) :
    (lrlibc_kill_all_mmdrv K (fresh s)).1 = some 0 ∧
    (lrlibc_kill_all_mmdrv K (fresh s)).2.trace.countP isError = 1 ∧
    attemptsIn (lrlibc_kill_all_mmdrv K (fresh s)).2.trace = 0 ∧
    (lrlibc_kill_all_mmdrv K (fresh s)).2.trace.countP isPathQuery = 1 ∧
    ∃ hq n buf b, (lrlibc_kill_all_mmdrv K (fresh s)).2.trace =
      prologueEvents (GetCurrentProcessId K wb).1 hq n buf 0 b ++
        [.errorMessage "Error enumerating processes."] := by
  have h3' : ¬ (lrlibc_get_process_file_path K (toInt32 (GetCurrentProcessId K wb).1)
      MAX_PATH (GetCurrentProcessId K wb).2).1 ≤ 0 := by omega
  have hpro : prologue K (fresh s) = .returned 0
      (lr_error_message "Error enumerating processes."
        (EnumProcesses K (MAX_PROCESS_ID_COUNT * ELEMENT_SIZE)
          (lrlibc_get_process_file_path K (toInt32 (GetCurrentProcessId K wb).1) MAX_PATH
            (GetCurrentProcessId K wb).2).2.2).2.2.2) := by
    unfold prologue
    rw [h1]
    simp only
    rw [h2]
    simp only [h3', h4, if_true, if_false]
  obtain ⟨seg, hq, ht⟩ := query_shape K (toInt32 (GetCurrentProcessId K wb).1)
    (GetCurrentProcessId K wb).2
  have ha := load_ok K _ _ _ h1
  have hb := load_ok K _ _ _ h2
  have hg : (GetCurrentProcessId K wb).2.trace =
      wb.trace ++ [Event.getCurrentProcessId (GetCurrentProcessId K wb).1] := rfl
  have hpid : intToU32 (toInt32 (GetCurrentProcessId K wb).1) =
      (GetCurrentProcessId K wb).1 := by
    rw [intToU32_toInt32]
    exact u32_of_lt (u32_lt _)
  rw [hpid] at hq
  have he : ∀ w : World σ, (EnumProcesses K (MAX_PROCESS_ID_COUNT * ELEMENT_SIZE) w).2.2.2.trace =
      w.trace ++ [Event.enumProcesses 4096
        (EnumProcesses K (MAX_PROCESS_ID_COUNT * ELEMENT_SIZE) w).1
        (EnumProcesses K (MAX_PROCESS_ID_COUNT * ELEMENT_SIZE) w).2.2.1] := fun _ => rfl
  rw [run_returned K _ _ _ hpro]
  simp only [lr_error_message]
  rw [he, h4, ht, hg, hb, ha]
  generalize (EnumProcesses K (MAX_PROCESS_ID_COUNT * ELEMENT_SIZE)
    (lrlibc_get_process_file_path K (toInt32 (GetCurrentProcessId K wb).1) MAX_PATH
      (GetCurrentProcessId K wb).2).2.2).2.2.1 = b
  generalize (lrlibc_get_process_file_path K (toInt32 (GetCurrentProcessId K wb).1) MAX_PATH
      (GetCurrentProcessId K wb).2) = q at h3 hq
  obtain ⟨res, path, wq⟩ := q
  simp only at h3 hq
  cases hq with
  | denied => omega
  | answered hq n buf hne =>
    refine ⟨trivial, ?_, ?_, ?_, hq, res, buf, b, ?_⟩
    · simp [fresh, queryEvents, List.countP_cons, isError]
    · simp [fresh, queryEvents, attemptsIn, List.countP_cons, isTerminate]
    · simp [fresh, queryEvents, List.countP_cons, isPathQuery]
    · simp [fresh, prologueEvents]

/-- Scenario C as first stated fails on its last part: with `EnumProcesses` failing the
run returns 0, logs one error and terminates nothing, yet its trace holds one image-path
query (the one on the caller), not none. -/
theorem enumeration_failure_counterexample :
    Event.enumProcesses 4096 0 0 ∈
      (lrlibc_kill_all_mmdrv tableKernel (fresh scenarioNoEnum)).2.trace ∧
    (lrlibc_kill_all_mmdrv tableKernel (fresh scenarioNoEnum)).1 = some 0 ∧
    Event.getModuleFileNameExA 4 260 12 mmdrvPath ∈
      (lrlibc_kill_all_mmdrv tableKernel (fresh scenarioNoEnum)).2.trace ∧
    (lrlibc_kill_all_mmdrv tableKernel (fresh scenarioNoEnum)).2.trace.countP isPathQuery ≠ 0 :=
  ⟨by decide, by decide, by decide, by decide⟩

/-- Scenario C on the explicit kernel: return value 0, one error, no terminate, one path
query, and the trace is the straight-line calls followed by the error message. -/
theorem enumeration_failure_witness :
    (lrlibc_kill_all_mmdrv tableKernel (fresh scenarioNoEnum)).1 = some 0 ∧
    (lrlibc_kill_all_mmdrv tableKernel (fresh scenarioNoEnum)).2.trace.countP isError = 1 ∧
    attemptsIn (lrlibc_kill_all_mmdrv tableKernel (fresh scenarioNoEnum)).2.trace = 0 ∧
    (lrlibc_kill_all_mmdrv tableKernel (fresh scenarioNoEnum)).2.trace.countP isPathQuery = 1 ∧
    ∃ hq n buf b, (lrlibc_kill_all_mmdrv tableKernel (fresh scenarioNoEnum)).2.trace =
      prologueEvents 100 hq n buf 0 b ++ [.errorMessage "Error enumerating processes."] :=
  enumeration_failure tableKernel scenarioNoEnum _ _ rfl rfl (by decide) (by decide)

/-- C8, as the code has it. On the explicit kernel (a terminated process leaves the
table, no call creates one), from any state whose process table has at most
`MAX_PROCESS_ID_COUNT` rows, so that one snapshot holds the whole table, a run started
right after a run returns 0. -/
theorem second_run_kills_nothing (s : Sys) (hlen : s.procs.length ≤ MAX_PROCESS_ID_COUNT) :
    (lrlibc_kill_all_mmdrv tableKernel
      (fresh (lrlibc_kill_all_mmdrv tableKernel (fresh s)).2.os)).1 = some 0 := by
  obtain ⟨-, t, hos⟩ := table_run s
  rw [hos, (table_run _).1, tableRun_twice s t hlen]

/-- The explicit kernel on the mixed table (7 rows): the first run returns 1, the run that
follows it returns 0. -/
theorem second_run_kills_nothing_witness :
    scenarioMixed.procs.length ≤ MAX_PROCESS_ID_COUNT ∧
    (lrlibc_kill_all_mmdrv tableKernel (fresh scenarioMixed)).1 = some 1 ∧
    (lrlibc_kill_all_mmdrv tableKernel
      (fresh (lrlibc_kill_all_mmdrv tableKernel (fresh scenarioMixed)).2.os)).1 = some 0 :=
  ⟨by decide, by decide, second_run_kills_nothing scenarioMixed (by decide)⟩

/-- Idempotence fails for a table larger than one snapshot. The crowded table has 1025
rows, its last row a duplicate of the caller; the first run sees rows 1 to 1024 and
terminates the duplicate 101, which brings the last row into the next snapshot: the second
run returns 1, not 0. -/
theorem second_run_counterexample :
    scenarioCrowded.procs.length = 1025 ∧
    (lrlibc_kill_all_mmdrv tableKernel (fresh scenarioCrowded)).1 = some 1 ∧
    (lrlibc_kill_all_mmdrv tableKernel
      (fresh (lrlibc_kill_all_mmdrv tableKernel (fresh scenarioCrowded)).2.os)).1 = some 1 := by
  refine ⟨by simp [scenarioCrowded, boot, fillers], ?_, ?_⟩
  · rw [(table_run scenarioCrowded).1, crowded_first_run]
  · obtain ⟨-, t, hos⟩ := table_run scenarioCrowded
    rw [hos, (table_run _).1, crowded_second_run]

/-- C9. Handles are balanced. (1) One call of `lrlibc_get_process_file_path` leaves open
exactly the handles that were open before it. (2) When the scan is reached, no handle is
open at any iteration boundary of the loop. (3) No handle is open when
`lrlibc_kill_all_mmdrv` is over. In each case every `CloseHandle` is on a handle that is
open at that point, so a handle is closed once. -/
theorem handles_balanced (K : Kernel σ) (s : σ) :
    (∀ (w : World σ) (pid maxLength : Int) (held : List Nat),
      ∃ seg, (lrlibc_get_process_file_path K pid maxLength w).2.2.trace = w.trace ++ seg ∧
        balance held seg = some held) ∧
    (∀ self selfPath snap w1, prologue K (fresh s) = .scanning self selfPath snap w1 →
      ∀ pre post, snap = pre ++ post →
        balance [] (atEntry K self selfPath pre w1).1.trace = some []) ∧
    balance [] (lrlibc_kill_all_mmdrv K (fresh s)).2.trace = some [] := by
  refine ⟨?_, ?_, ?_⟩
  · intro w pid maxLength held
    unfold lrlibc_get_process_file_path
    simp only [OpenProcess, GetModuleFileNameExA, CloseHandle]
    split
    · next h0 => exact ⟨_, rfl, by simp [balance, h0]⟩
    · next h0 =>
      generalize K.OpenProcess QUERY_ACCESS FALSE (intToU32 pid) w.os = o at h0 ⊢
      generalize K.GetModuleFileNameExA (u32 o.1) (intToU32 maxLength) o.2 = g
      exact ⟨[.openProcess QUERY_ACCESS FALSE (intToU32 pid) (u32 o.1),
        .getModuleFileNameExA (u32 o.1) (intToU32 maxLength) (toInt32 g.1.1) g.1.2,
        .closeHandle (u32 o.1)], by simp, by simp [balance, h0]⟩
  · intro self selfPath snap w1 hp pre post hs
    obtain ⟨hq, n, r, b, h1, -, -, h4, -, h6, -⟩ := prologue_scanning K _ _ _ _ _ hp
    obtain ⟨tr, total, hl, ht, -⟩ := loop_shape K self selfPath pre
      (fun q hq => h6 q (by rw [hs]; exact List.mem_append_left _ hq)) w1 0
    unfold atEntry
    rw [ht, h4, balance_append, balance_append]
    simp [fresh, balance, prologueEvents, queryEvents, h1, balance_loop _ _ _ _ _ hl]
  · rcases prologue_cases K (fresh s) with ⟨_, w', _, h', ht⟩ | ⟨_, w', _, h', ht⟩ |
      ⟨_, _, _, _, w', hq, _, h', ht⟩ | ⟨_, _, _, _, _, w', hne, _, h', ht⟩ |
      ⟨c, _, _, buf, _, _, snap, w', _, _, _, _, _, h', _⟩
    · rw [run_aborted K _ _ h', ht]
      simp [fresh, balance]
    · rw [run_aborted K _ _ h', ht]
      simp [fresh, balance]
    · rw [run_returned K _ _ _ h', ht, balance_append, balance_append]
      simp [fresh, balance, balance_query _ _ _ _ hq]
    · rw [run_returned K _ _ _ h', ht, balance_append]
      simp [fresh, balance, prologueEvents, queryEvents, hne]
    · obtain ⟨hq, n, r, b, tr, total, h1, -, -, -, hl, htr, -⟩ :=
        run_shape K s w' c buf snap h'
      rw [htr, balance_append]
      simp [balance, prologueEvents, queryEvents, h1, balance_loop _ _ _ _ _ hl]

/-- On the mixed table, whose scan goes through every path of the loop body, no handle is
open after the entries `[100, 200, 300, 400]` nor at the end of the scan. -/
theorem handles_balanced_witness :
    (∃ w1, prologue tableKernel (fresh scenarioMixed) =
        .scanning 100 mmdrvPath [100, 200, 300, 400, 500, 600, 700] w1 ∧
      balance [] (atEntry tableKernel 100 mmdrvPath [100, 200, 300, 400] w1).1.trace =
        some [] ∧
      balance [] (atEntry tableKernel 100 mmdrvPath [100, 200, 300, 400, 500, 600, 700]
        w1).1.trace = some []) ∧
    balance [] (lrlibc_kill_all_mmdrv tableKernel (fresh scenarioMixed)).2.trace = some [] :=
  ⟨⟨_, rfl,
    (handles_balanced tableKernel scenarioMixed).2.1 100 mmdrvPath
      [100, 200, 300, 400, 500, 600, 700] _ rfl [100, 200, 300, 400] [500, 600, 700] rfl,
    (handles_balanced tableKernel scenarioMixed).2.1 100 mmdrvPath
      [100, 200, 300, 400, 500, 600, 700] _ rfl [100, 200, 300, 400, 500, 600, 700] [] rfl⟩,
   (handles_balanced tableKernel scenarioMixed).2.2⟩

/-- C10 fails on the code. Whatever `time` is, `lrlib_think_time` asks `sleep` for 1000
milliseconds once: the call with `time = 2` requests 1000 ms, not 2000 ms, and two calls
with different arguments make the same calls. -/
theorem think_time_ignores_argument (K : Kernel σ) (s : σ) :
    (∀ t : ℚ, sleepRequests (lrlib_think_time K t (fresh s)).trace = [1000]) ∧
    sleepRequests (lrlib_think_time K 2 (fresh s)).trace ≠ [2 * 1000] ∧
    (∀ t u : ℚ, (lrlib_think_time K t (fresh s)).trace =
      (lrlib_think_time K u (fresh s)).trace) := by
  have key : ∀ t : ℚ, sleepRequests (lrlib_think_time K t (fresh s)).trace = [1000] := by
    intro t
    simp only [lrlib_think_time, lr_load_dll, lr_error_message, lr_start_transaction, sleep,
      lr_get_transaction_wasted_time, lr_output_message, lr_end_transaction, fresh]
    split <;> simp [sleepRequests]
  exact ⟨key, by rw [key]; decide, fun _ _ => rfl⟩

/-- C11 fails on the code. The array has 17 entries and the loop reads exactly those, so
no index is out of range, and a value is accepted when and only when it is one of the
entries. But the entries miss one setting of the GUI: with the classes as distinct bits,
extended log with result data and full trace (without parameters) is rejected, with the
error message and `lr_abort` and no logging call, and so is the same setting with
just-in-time logging. -/
theorem set_log_level_misses_a_setting (G : Log.LogEngine σ) (C : LogClasses) (s : σ)
    (hC : DistinctBits C) :
    (Log.valid_log_settings C).length = 17 ∧
    (∀ n, Log.is_valid C n =
      some (decide (n ∈ (Log.valid_log_settings C).map intToU32))) ∧
    Log.lrlib_set_log_level G C
      (C.LR_MSG_CLASS_EXTENDED_LOG ||| C.LR_MSG_CLASS_RESULT_DATA |||
        C.LR_MSG_CLASS_FULL_TRACE) (Log.start s) =
      .aborted ⟨s, [.errorMessage "Invalid logging setting. You may use one of the following:",
        .abort]⟩ ∧
    Log.lrlib_set_log_level G C
      (C.LR_MSG_CLASS_JIT_LOG_ON_ERROR ||| C.LR_MSG_CLASS_EXTENDED_LOG |||
        C.LR_MSG_CLASS_RESULT_DATA ||| C.LR_MSG_CLASS_FULL_TRACE) (Log.start s) =
      .aborted ⟨s, [.errorMessage "Invalid logging setting. You may use one of the following:",
        .abort]⟩ := by
  refine ⟨rfl, Log.is_valid_eq C, ?_, ?_⟩
  · rw [Log.set_log_level_rejected G C _ _ (Log.result_trace_not_listed C hC)]
    rfl
  · rw [Log.set_log_level_rejected G C _ _ (Log.jit_result_trace_not_listed C hC)]
    rfl

/-- With the bits drawn by `lrlib_print_log_options` the two settings are 26 and 538:
both are rejected, while extended log with all three options (30) is accepted. -/
theorem set_log_level_misses_a_setting_witness :
    DistinctBits drawnClasses ∧
    Log.is_valid drawnClasses 30 = some true ∧
    Log.is_valid drawnClasses 26 = some false ∧
    Log.is_valid drawnClasses 538 = some false ∧
    Log.lrlib_set_log_level (Log.wordEngine drawnClasses) drawnClasses 26 (Log.start 0) =
      .aborted ⟨0, [.errorMessage "Invalid logging setting. You may use one of the following:",
        .abort]⟩ ∧
    Log.lrlib_set_log_level (Log.wordEngine drawnClasses) drawnClasses 538 (Log.start 0) =
      .aborted ⟨0, [.errorMessage "Invalid logging setting. You may use one of the following:",
        .abort]⟩ :=
  ⟨⟨rfl, 0, 4, 1, 2, 3, 9, by decide, by decide, rfl, rfl, rfl, rfl, rfl, rfl⟩,
    by decide, by decide, by decide,
    (set_log_level_misses_a_setting (Log.wordEngine drawnClasses) drawnClasses 0
      ⟨rfl, 0, 4, 1, 2, 3, 9, by decide, by decide, rfl, rfl, rfl, rfl, rfl, rfl⟩).2.2.1,
    (set_log_level_misses_a_setting (Log.wordEngine drawnClasses) drawnClasses 0
      ⟨rfl, 0, 4, 1, 2, 3, 9, by decide, by decide, rfl, rfl, rfl, rfl, rfl, rfl⟩).2.2.2⟩

end Claims

end LrLibc
